import Mathlib

/-!
Shallow embedding of the `DatabaseStorage` ledger layer of the
coworkingcaisse server (`src/server/storage.ts`) and of the net-revenue
route handler (`src/server/routes.ts`), together with proofs about the
daily-statistics aggregator, the stock ledger and the expense side
effects.

Conventions of the embedding:
* JavaScript `Date` values are modelled by `DateTime` (calendar date plus
  milliseconds within the day); `date-fns` helpers `startOfDay`,
  `endOfDay` and `addMonths` are modelled faithfully (including the
  clamping of the day-of-month at the end of the target month).
* Database tables are association lists of rows carried in a `St` record;
  row ids come from a single fresh-id counter `nextId`.
* `async` methods become state-passing functions `St → St × Except …`;
  a thrown `Error` is an `.error` result, carrying the state as it was at
  the moment of the throw (writes performed before the throw persist,
  exactly as single-statement DB writes do in the source).
* Calls to `new Date()` become an explicit `now : DateTime` argument.
* The `try/catch` swallowing failures of the opportunistic expense
  creation is modelled by a boolean `expenseFails` oracle: when it is
  `true` the expense insert throws and the catch block drops the error.
-/

/-- Transaction categories (closed enum; the source validates membership
in `['entry','subscription','cafe']` at the boundary). -/
inductive TransactionType where
  | entry
  | subscription
  | cafe
deriving DecidableEq, Repr

/-- Modelled from the spec: the expense category enum (`EXPENSE_CATEGORIES`)
lives in `@shared/schema`, which is not part of the sources; the spec names
`supplies` and `rent` explicitly and leaves the rest open, represented here
by `other`. -/
inductive ExpenseCategory where
  | supplies
  | rent
  | other
deriving DecidableEq, Repr

/-- Stock movement kinds. -/
inductive StockActionType where
  | add
  | remove
  | adjust
deriving DecidableEq, Repr

/-- A calendar timestamp: Gregorian date plus milliseconds within the day.
`ms` ranges over `0 … 86399999` for timestamps produced by the system. -/
structure DateTime where
  year : Nat
  month : Nat
  day : Nat
  ms : Nat
deriving DecidableEq, Repr

/-- Gregorian leap-year test. -/
def isLeap (y : Nat) : Bool :=
  (y % 4 == 0 && y % 100 != 0) || y % 400 == 0

/-- Number of days in a month. -/
def daysInMonth (y m : Nat) : Nat :=
  if m == 2 then (if isLeap y then 29 else 28)
  else if m == 4 || m == 6 || m == 9 || m == 11 then 30
  else 31

/-- `date-fns` `startOfDay`: truncate to midnight. -/
def startOfDay (d : DateTime) : DateTime := { d with ms := 0 }

/-- `date-fns` `endOfDay`: last millisecond of the day. -/
def endOfDay (d : DateTime) : DateTime := { d with ms := 86399999 }

/-- `date-fns` `addMonths`: advance the month, clamping the day-of-month
to the length of the target month; the time of day is preserved. -/
def addMonths (d : DateTime) (n : Nat) : DateTime :=
  let total := d.year * 12 + (d.month - 1) + n
  let y := total / 12
  let m := total % 12 + 1
  { d with year := y, month := m, day := min d.day (daysInMonth y m) }

/-- Lexicographic `≤` on timestamps (calendar representation is
positional, so field-wise lexicographic order is the temporal order). -/
def dleb (a b : DateTime) : Bool :=
  a.year < b.year ||
    (a.year == b.year &&
      (a.month < b.month ||
        (a.month == b.month &&
          (a.day < b.day || (a.day == b.day && a.ms ≤ b.ms)))))

/-- A persisted transaction row. -/
structure Txn where
  id : Nat
  ttype : TransactionType
  amount : Int
  date : DateTime
  paymentMethod : String
  clientName : Option String
  notes : Option String
  subscriptionEndDate : Option DateTime
deriving DecidableEq, Repr

/-- `InsertTransaction`: creation payload; `date` and `subscriptionEndDate`
are optional (the store defaults `date` to now). -/
structure InsertTransaction where
  ttype : TransactionType
  amount : Int
  date : Option DateTime
  paymentMethod : String
  clientName : Option String := none
  notes : Option String := none
  subscriptionEndDate : Option DateTime := none
deriving DecidableEq, Repr

/-- `Partial<Transaction>` update payload: every mutable field optional. -/
structure TxnPatch where
  ttype : Option TransactionType := none
  amount : Option Int := none
  date : Option DateTime := none
  paymentMethod : Option String := none
  clientName : Option (Option String) := none
  notes : Option (Option String) := none
  subscriptionEndDate : Option DateTime := none
deriving DecidableEq, Repr

/-- A persisted daily statistics row (one per calendar day). -/
structure DailyStatsRow where
  id : Nat
  date : DateTime
  totalRevenue : Int
  entriesRevenue : Int
  entriesCount : Int
  subscriptionsRevenue : Int
  subscriptionsCount : Int
  cafeRevenue : Int
  cafeOrdersCount : Int
deriving DecidableEq, Repr

/-- `InsertDailyStats`: upsert payload with every numeric field optional
(the upsert merges field-by-field, keeping the prior value when a field
is not provided). -/
structure InsertDailyStats where
  date : DateTime
  totalRevenue : Option Int := none
  entriesRevenue : Option Int := none
  entriesCount : Option Int := none
  subscriptionsRevenue : Option Int := none
  subscriptionsCount : Option Int := none
  cafeRevenue : Option Int := none
  cafeOrdersCount : Option Int := none
deriving DecidableEq, Repr

/-- A persisted expense row. -/
structure Expense where
  id : Nat
  amount : Int
  category : ExpenseCategory
  date : DateTime
  description : String
  paymentMethod : String
  createdById : Nat
deriving DecidableEq, Repr

/-- A persisted inventory row (one per product). -/
structure InventoryRow where
  id : Nat
  productId : Nat
  quantity : Int
  minThreshold : Int
  purchasePrice : Option Int
  expirationDate : Option DateTime
  lastRestockDate : Option DateTime
deriving DecidableEq, Repr

/-- `InsertInventory` creation payload. -/
structure InsertInventory where
  productId : Nat
  quantity : Option Int := none
  minThreshold : Option Int := none
  purchasePrice : Option Int := none
  expirationDate : Option DateTime := none
  lastRestockDate : Option DateTime := none
deriving DecidableEq, Repr

/-- Partial inventory update payload (`Partial<Inventory>`). -/
structure InventoryPatch where
  quantity : Option Int := none
  lastRestockDate : Option (Option DateTime) := none
deriving DecidableEq, Repr

/-- A persisted stock movement row (append-only audit log). -/
structure StockMovement where
  id : Nat
  inventoryId : Nat
  productId : Nat
  quantity : Int
  actionType : StockActionType
  reason : Option String
  performedById : Nat
  transactionId : Option Nat
  timestamp : DateTime
deriving DecidableEq, Repr

/-- A product row (only the fields the ledger logic reads). -/
structure Product where
  id : Nat
  name : String
deriving DecidableEq, Repr

/-- Error kinds thrown by the storage layer. -/
inductive StorageError where
  | invalidQuantity
  | notFound
  | insufficientStock
  | duplicateInventory
  | expenseInsertFailed
deriving DecidableEq, Repr

/-- Equality of `Except` results is decidable (used to evaluate the
operations on concrete stores). -/
instance {e a : Type} [DecidableEq e] [DecidableEq a] :
    DecidableEq (Except e a) := fun x y =>
  match x, y with
  | .ok u, .ok v =>
    if h : u = v then .isTrue (by simp [h]) else .isFalse (by simp [h])
  | .error u, .error v =>
    if h : u = v then .isTrue (by simp [h]) else .isFalse (by simp [h])
  | .ok _, .error _ => .isFalse (by simp)
  | .error _, .ok _ => .isFalse (by simp)

/-- The relational store: one association list per table plus a fresh-id
counter. -/
structure St where
  transactions : List Txn
  stats : List DailyStatsRow
  expenses : List Expense
  inventory : List InventoryRow
  movements : List StockMovement
  products : List Product
  nextId : Nat
deriving DecidableEq, Repr

/-- The empty store. -/
def emptySt : St :=
  { transactions := [], stats := [], expenses := [], inventory := [],
    movements := [], products := [], nextId := 1 }

/-! ### Expense and inventory primitives -/

/-- `createExpense` / the raw expense insert, parametrised by the failure
oracle used to model the swallowed insert error. -/
def createExpense (st : St) (amount : Int) (category : ExpenseCategory)
    (date : DateTime) (description : String) (paymentMethod : String)
    (createdById : Nat) (expenseFails : Bool) :
    St × Except StorageError Expense :=
  if expenseFails then (st, .error .expenseInsertFailed)
  else
    let row : Expense :=
      { id := st.nextId, amount := amount, category := category,
        date := date, description := description,
        paymentMethod := paymentMethod, createdById := createdById }
    ({ st with expenses := st.expenses ++ [row], nextId := st.nextId + 1 },
      .ok row)

/-- `getInventoryItemByProductId`. -/
def getInventoryItemByProductId (st : St) (productId : Nat) :
    Option InventoryRow :=
  st.inventory.find? (fun r => r.productId == productId)

/-- `getProduct` (raw select by id). -/
def getProduct (st : St) (id : Nat) : Option Product :=
  st.products.find? (fun p => p.id == id)

/-- JavaScript `x || d` over an optional number: `0` is falsy. -/
def jsOr (x : Option Int) (d : Int) : Int :=
  match x with
  | some v => if v == 0 then d else v
  | none => d

/-- The opportunistic purchase-expense block shared by
`createInventoryItem` and `addStock`: when the purchase price `pp` is a
positive number and the product exists, inserts a `supplies` expense of
`p * k`; the `try/catch` of the source swallows an insert failure,
keeping the pre-insert state. -/
def recordPurchaseExpense (st : St) (pp : Option Int) (productId : Nat)
    (k : Int) (describe : String → String) (createdById : Nat)
    (now : DateTime) (expenseFails : Bool) : St :=
  match pp with
  | some p =>
    if p > 0 then
      match getProduct st productId with
      | some product =>
        let res := createExpense st (p * k) .supplies now
          (describe product.name) "cash" createdById expenseFails
        (match res.2 with | .ok _ => res.1 | .error _ => st)
      | none => st
    else st
  | none => st

/-- `createInventoryItem`: rejects a duplicate product, inserts the row,
then opportunistically records a `supplies` expense when a positive
purchase price is given; a failure of that insert is swallowed. -/
def createInventoryItem (st : St) (item : InsertInventory) (now : DateTime)
    (expenseFails : Bool) : St × Except StorageError InventoryRow :=
  match getInventoryItemByProductId st item.productId with
  | some _ => (st, .error .duplicateInventory)
  | none =>
    let row : InventoryRow :=
      { id := st.nextId, productId := item.productId,
        quantity := item.quantity.getD 0,
        minThreshold := item.minThreshold.getD 5,
        purchasePrice := item.purchasePrice,
        expirationDate := item.expirationDate,
        lastRestockDate := item.lastRestockDate }
    let st1 : St :=
      { st with inventory := st.inventory ++ [row], nextId := st.nextId + 1 }
    let st2 := recordPurchaseExpense st1 item.purchasePrice item.productId
      (jsOr item.quantity 1) (fun name => "Achat de stock: " ++ name) 1
      now expenseFails
    (st2, .ok row)

/-- `updateInventoryItem`: partial update of the row with the given id. -/
def updateInventoryItem (st : St) (id : Nat) (patch : InventoryPatch) :
    St × Option InventoryRow :=
  match st.inventory.find? (fun r => r.id == id) with
  | none => (st, none)
  | some r =>
    let r' : InventoryRow :=
      { r with quantity := patch.quantity.getD r.quantity,
               lastRestockDate := patch.lastRestockDate.getD r.lastRestockDate }
    ({ st with inventory :=
        st.inventory.map (fun x => if x.id == id then r' else x) }, some r')

/-- `addStock`: guard `quantity > 0`, auto-create the inventory row when
absent, increment the quantity, refresh `lastRestockDate`, append an
`add` movement, then opportunistically record the purchase expense. -/
def addStock (st : St) (productId : Nat) (quantity : Int) (userId : Nat)
    (reason : Option String) (now : DateTime) (expenseFails : Bool) :
    St × Except StorageError (InventoryRow × StockMovement) :=
  if quantity ≤ 0 then (st, .error .invalidQuantity)
  else
    let found := getInventoryItemByProductId st productId
    let created :=
      match found with
      | some i => (st, Except.ok i)
      | none =>
        createInventoryItem st
          { productId := productId, quantity := some 0,
            minThreshold := some 5, lastRestockDate := some now }
          now expenseFails
    match created with
    | (st0, .error e) => (st0, .error e)
    | (st0, .ok invItem) =>
      match updateInventoryItem st0 invItem.id
          { quantity := some (invItem.quantity + quantity),
            lastRestockDate := some (some now) } with
      | (st1, none) => (st1, .error .notFound)
      | (st1, some updatedInv) =>
        let movement : StockMovement :=
          { id := st1.nextId, inventoryId := invItem.id,
            productId := productId, quantity := quantity,
            actionType := .add, reason := reason, performedById := userId,
            transactionId := none, timestamp := now }
        let st2 : St :=
          { st1 with movements := st1.movements ++ [movement],
                     nextId := st1.nextId + 1 }
        let st3 := recordPurchaseExpense st2 invItem.purchasePrice
          productId quantity
          (fun name =>
            "Achat de stock: " ++ name ++ " (" ++ toString quantity
              ++ " unités)")
          userId now expenseFails
        (st3, .ok (updatedInv, movement))

/-- `removeStock`: guard `quantity > 0`, fail `notFound` when no row
exists, fail `insufficientStock` when the on-hand quantity is below the
request, otherwise decrement and append a `remove` movement. -/
def removeStock (st : St) (productId : Nat) (quantity : Int) (userId : Nat)
    (reason : Option String) (transactionId : Option Nat) (now : DateTime) :
    St × Except StorageError (InventoryRow × StockMovement) :=
  if quantity ≤ 0 then (st, .error .invalidQuantity)
  else
    match getInventoryItemByProductId st productId with
    | none => (st, .error .notFound)
    | some invItem =>
      if invItem.quantity < quantity then (st, .error .insufficientStock)
      else
        match updateInventoryItem st invItem.id
            { quantity := some (invItem.quantity - quantity) } with
        | (st1, none) => (st1, .error .notFound)
        | (st1, some updatedInv) =>
          let movement : StockMovement :=
            { id := st1.nextId, inventoryId := invItem.id,
              productId := productId, quantity := -quantity,
              actionType := .remove, reason := reason,
              performedById := userId, transactionId := transactionId,
              timestamp := now }
          ({ st1 with movements := st1.movements ++ [movement],
                      nextId := st1.nextId + 1 },
            .ok (updatedInv, movement))

/-- `adjustStock`: guard `newQuantity ≥ 0`, auto-create the row when
absent, set the quantity to `newQuantity`, refresh `lastRestockDate`
exactly when the delta is positive, and append an `adjust` movement
carrying the (possibly zero or negative) delta. -/
def adjustStock (st : St) (productId : Nat) (newQuantity : Int)
    (userId : Nat) (reason : Option String) (now : DateTime)
    (expenseFails : Bool) :
    St × Except StorageError (InventoryRow × StockMovement) :=
  if newQuantity < 0 then (st, .error .invalidQuantity)
  else
    let created :=
      match getInventoryItemByProductId st productId with
      | some i => (st, Except.ok i)
      | none =>
        createInventoryItem st
          { productId := productId, quantity := some 0,
            minThreshold := some 5, lastRestockDate := some now }
          now expenseFails
    match created with
    | (st0, .error e) => (st0, .error e)
    | (st0, .ok invItem) =>
      let quantityChange := newQuantity - invItem.quantity
      match updateInventoryItem st0 invItem.id
          { quantity := some newQuantity,
            lastRestockDate :=
              if quantityChange > 0 then some (some now) else none } with
      | (st1, none) => (st1, .error .notFound)
      | (st1, some updatedInv) =>
        let movement : StockMovement :=
          { id := st1.nextId, inventoryId := invItem.id,
            productId := productId, quantity := quantityChange,
            actionType := .adjust, reason := reason,
            performedById := userId, transactionId := none,
            timestamp := now }
        ({ st1 with movements := st1.movements ++ [movement],
                    nextId := st1.nextId + 1 },
          .ok (updatedInv, movement))

/-! ### Transaction ledger and daily statistics aggregator -/

/-- `getTransaction`. -/
def getTransaction (st : St) (id : Nat) : Option Txn :=
  st.transactions.find? (fun t => t.id == id)

/-- `getDailyStats`: look up the stats row keyed by the day-floored date. -/
def getDailyStats (st : St) (date : DateTime) : Option DailyStatsRow :=
  st.stats.find? (fun r => r.date == startOfDay date)

/-- `upsertDailyStats`: update the existing row field-by-field (absent
fields keep their prior value), or insert a fresh row with absent fields
defaulted to 0.  The update is keyed by the existing row's id and does
not touch its date. -/
def upsertDailyStats (st : St) (stats : InsertDailyStats) :
    St × DailyStatsRow :=
  let dayStart := startOfDay stats.date
  match getDailyStats st dayStart with
  | some existing =>
    let merged : DailyStatsRow :=
      { existing with
        totalRevenue := stats.totalRevenue.getD existing.totalRevenue,
        entriesRevenue := stats.entriesRevenue.getD existing.entriesRevenue,
        entriesCount := stats.entriesCount.getD existing.entriesCount,
        subscriptionsRevenue :=
          stats.subscriptionsRevenue.getD existing.subscriptionsRevenue,
        subscriptionsCount :=
          stats.subscriptionsCount.getD existing.subscriptionsCount,
        cafeRevenue := stats.cafeRevenue.getD existing.cafeRevenue,
        cafeOrdersCount := stats.cafeOrdersCount.getD existing.cafeOrdersCount }
    ({ st with stats :=
        st.stats.map (fun r => if r.id == existing.id then merged else r) },
      merged)
  | none =>
    let row : DailyStatsRow :=
      { id := st.nextId, date := dayStart,
        totalRevenue := stats.totalRevenue.getD 0,
        entriesRevenue := stats.entriesRevenue.getD 0,
        entriesCount := stats.entriesCount.getD 0,
        subscriptionsRevenue := stats.subscriptionsRevenue.getD 0,
        subscriptionsCount := stats.subscriptionsCount.getD 0,
        cafeRevenue := stats.cafeRevenue.getD 0,
        cafeOrdersCount := stats.cafeOrdersCount.getD 0 }
    ({ st with stats := st.stats ++ [row], nextId := st.nextId + 1 }, row)

/-- Turn a full stats row into an all-fields-provided upsert payload
(this is what the internal callers pass: a complete `DailyStats`
object, every field defined). -/
def toInsertStats (s : DailyStatsRow) : InsertDailyStats :=
  { date := s.date,
    totalRevenue := some s.totalRevenue,
    entriesRevenue := some s.entriesRevenue,
    entriesCount := some s.entriesCount,
    subscriptionsRevenue := some s.subscriptionsRevenue,
    subscriptionsCount := some s.subscriptionsCount,
    cafeRevenue := some s.cafeRevenue,
    cafeOrdersCount := some s.cafeOrdersCount }

/-- Add a transaction's contribution to a stats row (`updateStatsForTransaction`'s
switch): the total and the category revenue grow by the amount, the
category count by one. -/
def addTxnToStats (s : DailyStatsRow) (t : Txn) : DailyStatsRow :=
  let s := { s with totalRevenue := s.totalRevenue + t.amount }
  match t.ttype with
  | .entry =>
    { s with entriesRevenue := s.entriesRevenue + t.amount,
             entriesCount := s.entriesCount + 1 }
  | .subscription =>
    { s with subscriptionsRevenue := s.subscriptionsRevenue + t.amount,
             subscriptionsCount := s.subscriptionsCount + 1 }
  | .cafe =>
    { s with cafeRevenue := s.cafeRevenue + t.amount,
             cafeOrdersCount := s.cafeOrdersCount + 1 }

/-- Subtract a transaction's contribution (the switch in
`deleteTransaction` / `updateTransaction`): revenues are subtracted
without clamping, the category count is clamped at 0. -/
def subTxnFromStats (s : DailyStatsRow) (t : Txn) : DailyStatsRow :=
  let s := { s with totalRevenue := s.totalRevenue - t.amount }
  match t.ttype with
  | .entry =>
    { s with entriesRevenue := s.entriesRevenue - t.amount,
             entriesCount := max 0 (s.entriesCount - 1) }
  | .subscription =>
    { s with subscriptionsRevenue := s.subscriptionsRevenue - t.amount,
             subscriptionsCount := max 0 (s.subscriptionsCount - 1) }
  | .cafe =>
    { s with cafeRevenue := s.cafeRevenue - t.amount,
             cafeOrdersCount := max 0 (s.cafeOrdersCount - 1) }

/-- The all-zero stats row `updateStatsForTransaction` builds when no row
exists for the day (`id 0` is the "to be generated" placeholder). -/
def zeroStatsRow (date : DateTime) : DailyStatsRow :=
  { id := 0, date := date, totalRevenue := 0,
    entriesRevenue := 0, entriesCount := 0,
    subscriptionsRevenue := 0, subscriptionsCount := 0,
    cafeRevenue := 0, cafeOrdersCount := 0 }

/-- `updateStatsForTransaction`: load (or zero-initialize) the day's row,
add the transaction's contribution, upsert. -/
def updateStatsForTransaction (st : St) (t : Txn) : St :=
  let transactionDate := startOfDay t.date
  let stats :=
    match getDailyStats st transactionDate with
    | some s => s
    | none => zeroStatsRow transactionDate
  (upsertDailyStats st (toInsertStats (addTxnToStats stats t))).1

/-- `createTransaction`: derive the subscription end date when the type is
`subscription` and none was supplied, persist the row (the store defaults
an absent `date` to now), then apply the day's stats delta. -/
def createTransaction (st : St) (ins : InsertTransaction) (now : DateTime) :
    St × Txn :=
  let derivedEnd := some (addMonths (ins.date.getD now) 1)
  let ins :=
    if ins.ttype == .subscription && ins.subscriptionEndDate == none then
      { ins with subscriptionEndDate := derivedEnd }
    else ins
  let txn : Txn :=
    { id := st.nextId, ttype := ins.ttype, amount := ins.amount,
      date := ins.date.getD now, paymentMethod := ins.paymentMethod,
      clientName := ins.clientName, notes := ins.notes,
      subscriptionEndDate := ins.subscriptionEndDate }
  let st1 : St :=
    { st with transactions := st.transactions ++ [txn],
              nextId := st.nextId + 1 }
  (updateStatsForTransaction st1 txn, txn)

/-- Apply a `Partial<Transaction>` patch to a row. -/
def applyPatch (t : Txn) (p : TxnPatch) : Txn :=
  { t with ttype := p.ttype.getD t.ttype,
           amount := p.amount.getD t.amount,
           date := p.date.getD t.date,
           paymentMethod := p.paymentMethod.getD t.paymentMethod,
           clientName := p.clientName.getD t.clientName,
           notes := p.notes.getD t.notes,
           subscriptionEndDate :=
             match p.subscriptionEndDate with
             | some d => some d
             | none => t.subscriptionEndDate }

/-- `updateTransaction`: `none` when the id is absent; derives the
subscription end date when the patch sets `type = subscription` without
an end date (from `patch.date`, else the original's date); writes the
patched row; when amount, date or type is in the patch, subtracts the
original contribution from the original day's row (skipped when that row
is absent) and adds the updated contribution to the new day's row. -/
def updateTransaction (st : St) (id : Nat) (data : TxnPatch)
    (now : DateTime) : St × Option Txn :=
  match getTransaction st id with
  | none => (st, none)
  | some originalTransaction =>
    -- `data.date || originalTransaction.date || new Date()`;
    -- the stored date is never absent, so `now` is unreachable here
    let startDate := data.date.getD originalTransaction.date
    let data :=
      if data.ttype == some .subscription &&
          data.subscriptionEndDate == none then
        { data with subscriptionEndDate := some (addMonths startDate 1) }
      else data
    let updated := applyPatch originalTransaction data
    let st1 : St :=
      { st with transactions :=
          st.transactions.map (fun t => if t.id == id then updated else t) }
    if data.amount.isSome || data.date.isSome || data.ttype.isSome then
      let originalDate := startOfDay originalTransaction.date
      let st2 :=
        match getDailyStats st1 originalDate with
        | some originalStats =>
          (upsertDailyStats st1
            (toInsertStats (subTxnFromStats originalStats
              originalTransaction))).1
        | none => st1
      (updateStatsForTransaction st2 updated, some updated)
    else
      (st1, some updated)

/-- `deleteTransaction`: `false` when the id is absent; otherwise removes
the row and, when the day's stats row exists, subtracts the
transaction's contribution from it (nothing is written when the row is
absent). -/
def deleteTransaction (st : St) (id : Nat) : St × Bool :=
  match getTransaction st id with
  | none => (st, false)
  | some transaction =>
    let st1 : St :=
      { st with transactions :=
          st.transactions.filter (fun t => !(t.id == id)) }
    let transactionDate := startOfDay transaction.date
    let st2 :=
      match getDailyStats st1 transactionDate with
      | some stats =>
        (upsertDailyStats st1
          (toInsertStats (subTxnFromStats stats transaction))).1
      | none => st1
    (st2, true)

/-! ### Expense queries and the net-revenue handler -/

/-- `getExpensesByDateRange`: expenses whose date lies between the start
of the first day and the end of the last day, inclusive. -/
def getExpensesByDateRange (st : St) (startDate endDate : DateTime) :
    List Expense :=
  let start := startOfDay startDate
  let stop := endOfDay endDate
  st.expenses.filter (fun e => dleb start e.date && dleb e.date stop)

/-- `getDailyStatsByRange`: stats rows whose (day-floored) date lies in
the same inclusive day range. -/
def getDailyStatsByRange (st : St) (startDate endDate : DateTime) :
    List DailyStatsRow :=
  let start := startOfDay startDate
  let stop := endOfDay endDate
  st.stats.filter (fun r => dleb start r.date && dleb r.date stop)

/-- Response shape of `GET /api/stats/net-revenue`; the breakdown object
is modelled as a total function defaulting to 0 (the handler reads
`breakdown[category] || 0`). -/
structure NetRevenueResponse where
  totalRevenue : Int
  totalExpenses : Int
  netRevenue : Int
  expenseBreakdown : ExpenseCategory → Int

/-- The `GET /api/stats/net-revenue` handler: sums `DailyStats.totalRevenue`
over the range, sums expense amounts over the same range, subtracts, and
folds the per-category breakdown. -/
def netRevenueHandler (st : St) (startDate endDate : DateTime) :
    NetRevenueResponse :=
  let stats := getDailyStatsByRange st startDate endDate
  let totalRevenue := stats.foldl (fun sum day => sum + day.totalRevenue) 0
  let expenses := getExpensesByDateRange st startDate endDate
  let totalExpenses := expenses.foldl (fun sum e => sum + e.amount) 0
  let netRevenue := totalRevenue - totalExpenses
  { totalRevenue := totalRevenue,
    totalExpenses := totalExpenses,
    netRevenue := netRevenue,
    expenseBreakdown :=
      expenses.foldl
        (fun breakdown e c =>
          if c == e.category then breakdown c + e.amount else breakdown c)
        (fun _ => 0) }

/-! ### Derived notions used by the specification claims -/

/-- Is transaction `t` dated on the same calendar day as `d`? -/
def onDay (d : DateTime) (t : Txn) : Bool :=
  startOfDay t.date == startOfDay d

/-- The non-deleted transactions dated on the day of `d`. -/
def txnsOnDay (st : St) (d : DateTime) : List Txn :=
  st.transactions.filter (onDay d)

/-- The pure value part of a daily statistics row (everything except the
row id and the key date). -/
structure StatsVals where
  totalRevenue : Int
  entriesRevenue : Int
  entriesCount : Int
  subscriptionsRevenue : Int
  subscriptionsCount : Int
  cafeRevenue : Int
  cafeOrdersCount : Int
deriving DecidableEq, Repr

/-- Values of a stats row. -/
def rowVals (r : DailyStatsRow) : StatsVals :=
  { totalRevenue := r.totalRevenue,
    entriesRevenue := r.entriesRevenue,
    entriesCount := r.entriesCount,
    subscriptionsRevenue := r.subscriptionsRevenue,
    subscriptionsCount := r.subscriptionsCount,
    cafeRevenue := r.cafeRevenue,
    cafeOrdersCount := r.cafeOrdersCount }

/-- The all-zero value vector. -/
def zeroVals : StatsVals :=
  { totalRevenue := 0, entriesRevenue := 0, entriesCount := 0,
    subscriptionsRevenue := 0, subscriptionsCount := 0,
    cafeRevenue := 0, cafeOrdersCount := 0 }

/-- The observable daily statistics for the day of `d`: the stored row's
values, or all zeros when no row exists (`GET /api/stats/daily` returns a
zeroed stub in that case, and §4.2 instructs callers to treat absence as
zero). -/
def statsView (st : St) (d : DateTime) : StatsVals :=
  match getDailyStats st d with
  | some r => rowVals r
  | none => zeroVals

/-- Value-level version of `addTxnToStats`. -/
def addVals (v : StatsVals) (t : Txn) : StatsVals :=
  let v := { v with totalRevenue := v.totalRevenue + t.amount }
  match t.ttype with
  | .entry =>
    { v with entriesRevenue := v.entriesRevenue + t.amount,
             entriesCount := v.entriesCount + 1 }
  | .subscription =>
    { v with subscriptionsRevenue := v.subscriptionsRevenue + t.amount,
             subscriptionsCount := v.subscriptionsCount + 1 }
  | .cafe =>
    { v with cafeRevenue := v.cafeRevenue + t.amount,
             cafeOrdersCount := v.cafeOrdersCount + 1 }

/-- Value-level version of `subTxnFromStats` (counts clamped at 0,
revenues not clamped). -/
def subVals (v : StatsVals) (t : Txn) : StatsVals :=
  let v := { v with totalRevenue := v.totalRevenue - t.amount }
  match t.ttype with
  | .entry =>
    { v with entriesRevenue := v.entriesRevenue - t.amount,
             entriesCount := max 0 (v.entriesCount - 1) }
  | .subscription =>
    { v with subscriptionsRevenue := v.subscriptionsRevenue - t.amount,
             subscriptionsCount := max 0 (v.subscriptionsCount - 1) }
  | .cafe =>
    { v with cafeRevenue := v.cafeRevenue - t.amount,
             cafeOrdersCount := max 0 (v.cafeOrdersCount - 1) }

/-- Exact (unclamped) inverse of `addVals`: subtracts the revenue and
decrements the category count without the `Math.max(0, …)` clamp.  On
states where the count is at least 1 it coincides with `subVals`. -/
def subValsExact (v : StatsVals) (t : Txn) : StatsVals :=
  let v := { v with totalRevenue := v.totalRevenue - t.amount }
  match t.ttype with
  | .entry =>
    { v with entriesRevenue := v.entriesRevenue - t.amount,
             entriesCount := v.entriesCount - 1 }
  | .subscription =>
    { v with subscriptionsRevenue := v.subscriptionsRevenue - t.amount,
             subscriptionsCount := v.subscriptionsCount - 1 }
  | .cafe =>
    { v with cafeRevenue := v.cafeRevenue - t.amount,
             cafeOrdersCount := v.cafeOrdersCount - 1 }

/-- The reference aggregate of a list of transactions: per-category
revenue is the sum of amounts of that category, per-category count is the
number of such transactions, and the total is the sum of all amounts. -/
def aggTxns (ts : List Txn) : StatsVals :=
  { totalRevenue := (ts.map (fun t => t.amount)).sum,
    entriesRevenue :=
      ((ts.filter (fun t => t.ttype == .entry)).map (fun t => t.amount)).sum,
    entriesCount := ((ts.filter (fun t => t.ttype == .entry)).length : Int),
    subscriptionsRevenue :=
      ((ts.filter (fun t => t.ttype == .subscription)).map
        (fun t => t.amount)).sum,
    subscriptionsCount :=
      ((ts.filter (fun t => t.ttype == .subscription)).length : Int),
    cafeRevenue :=
      ((ts.filter (fun t => t.ttype == .cafe)).map (fun t => t.amount)).sum,
    cafeOrdersCount :=
      ((ts.filter (fun t => t.ttype == .cafe)).length : Int) }

/-- One transaction-ledger operation (the three mutators of §4.1). -/
inductive TxnOp where
  | create (ins : InsertTransaction) (now : DateTime)
  | update (id : Nat) (patch : TxnPatch) (now : DateTime)
  | delete (id : Nat)

/-- Apply one ledger operation (dropping the returned value). -/
def applyTxnOp (st : St) : TxnOp → St
  | .create ins now => (createTransaction st ins now).1
  | .update id patch now => (updateTransaction st id patch now).1
  | .delete id => (deleteTransaction st id).1

/-- Run a sequence of ledger operations from a state. -/
def runTxnOps (st : St) (ops : List TxnOp) : St :=
  ops.foldl applyTxnOp st

/-- One stock-ledger operation (the three mutators of §4.3). -/
inductive StockOp where
  | add (productId : Nat) (qty : Int) (userId : Nat) (reason : Option String)
      (now : DateTime) (expenseFails : Bool)
  | remove (productId : Nat) (qty : Int) (userId : Nat)
      (reason : Option String) (transactionId : Option Nat) (now : DateTime)
  | adjust (productId : Nat) (newQuantity : Int) (userId : Nat)
      (reason : Option String) (now : DateTime) (expenseFails : Bool)

/-- Apply one stock operation (dropping the returned value). -/
def applyStockOp (st : St) : StockOp → St
  | .add pid qty uid reason now failE =>
    (addStock st pid qty uid reason now failE).1
  | .remove pid qty uid reason txid now =>
    (removeStock st pid qty uid reason txid now).1
  | .adjust pid q uid reason now failE =>
    (adjustStock st pid q uid reason now failE).1

/-- Run a sequence of stock operations from a state. -/
def runStockOps (st : St) (ops : List StockOp) : St :=
  ops.foldl applyStockOp st

/-- Every inventory quantity is non-negative. -/
abbrev InvNonneg (st : St) : Prop :=
  ∀ r ∈ st.inventory, 0 ≤ r.quantity

/-- Inventory rows have pairwise-distinct ids. -/
abbrev InvIdsNodup (st : St) : Prop :=
  st.inventory.Pairwise (fun a b => a.id ≠ b.id)

/-- Inventory row ids are below the fresh-id counter. -/
abbrev InvIdsBounded (st : St) : Prop :=
  ∀ r ∈ st.inventory, r.id < st.nextId

/-- Transaction rows have pairwise-distinct ids, all below the fresh-id
counter. -/
abbrev TxnIdsOk (st : St) : Prop :=
  (∀ t ∈ st.transactions, t.id < st.nextId) ∧
    st.transactions.Pairwise (fun a b => a.id ≠ b.id)

/-- Well-formedness of the stats table: ids are distinct and below the
counter, dates are distinct and day-floored. -/
abbrev StatsWF (st : St) : Prop :=
  (∀ r ∈ st.stats, r.id < st.nextId) ∧
    st.stats.Pairwise (fun a b => a.id ≠ b.id) ∧
    st.stats.Pairwise (fun a b => a.date ≠ b.date) ∧
    ∀ r ∈ st.stats, startOfDay r.date = r.date

/-- All stored per-category counts are non-negative. -/
abbrev StatsCountsNonneg (st : St) : Prop :=
  ∀ r ∈ st.stats,
    0 ≤ r.entriesCount ∧ 0 ≤ r.subscriptionsCount ∧ 0 ≤ r.cafeOrdersCount

/-- The daily-statistics invariant of §3/§8: for every day, the observable
stats equal the reference aggregate of the non-deleted transactions of
that day. -/
def StatsInvariant (st : St) : Prop :=
  ∀ d, statsView st d = aggTxns (txnsOnDay st d)

/-- The full inductive invariant of the transaction ledger: well-formed
ids and stats table plus the daily-statistics invariant. -/
def LedgerInv (st : St) : Prop :=
  TxnIdsOk st ∧ StatsWF st ∧ StatsInvariant st

/-! ### Concrete fixtures for witnesses and counterexamples -/

/-- 2024-01-10, midnight. -/
def dJan10 : DateTime := ⟨2024, 1, 10, 0⟩

/-- 2024-01-20, midnight. -/
def dJan20 : DateTime := ⟨2024, 1, 20, 0⟩

/-- 2024-03-15, midnight. -/
def dMar15 : DateTime := ⟨2024, 3, 15, 0⟩

/-- An inventory row: product 1, 5 units on hand, no purchase price. -/
def invRow5 : InventoryRow :=
  { id := 1, productId := 1, quantity := 5, minThreshold := 5,
    purchasePrice := none, expirationDate := none, lastRestockDate := none }

/-- An inventory row: product 1, 12 units on hand, no purchase price. -/
def invRow12 : InventoryRow :=
  { id := 1, productId := 1, quantity := 12, minThreshold := 5,
    purchasePrice := none, expirationDate := none, lastRestockDate := none }

/-- An inventory row: product 1, 5 units on hand, purchase price 7. -/
def invRowPriced : InventoryRow :=
  { id := 1, productId := 1, quantity := 5, minThreshold := 5,
    purchasePrice := some 7, expirationDate := none,
    lastRestockDate := none }

/-- A product row for product 1. -/
def productRow : Product := { id := 1, name := "Café expresso" }

/-- A store holding only `invRow5`. -/
def stInv5 : St := { emptySt with inventory := [invRow5], nextId := 2 }

/-- A store holding only `invRow12`. -/
def stInv12 : St := { emptySt with inventory := [invRow12], nextId := 2 }

/-- A store holding `invRowPriced` and its product. -/
def stInvPriced : St :=
  { emptySt with
    inventory := [invRowPriced], products := [productRow], nextId := 2 }

/-- A subscription transaction dated 2024-01-10 whose end date was
explicitly set to 2024-03-15. -/
def txnSubExplicit : Txn :=
  { id := 1, ttype := .subscription, amount := 100, date := dJan10,
    paymentMethod := "cash", clientName := none, notes := none,
    subscriptionEndDate := some dMar15 }

/-- A store holding only `txnSubExplicit` and no stats rows. -/
def stSubExplicit : St :=
  { emptySt with transactions := [txnSubExplicit], nextId := 2 }

/-- An entry transaction of amount 10 dated 2024-01-10. -/
def txnEntry10 : Txn :=
  { id := 1, ttype := .entry, amount := 10, date := dJan10,
    paymentMethod := "cash", clientName := none, notes := none,
    subscriptionEndDate := none }

/-- A store holding `txnEntry10` but no stats row for its day. -/
def stOrphanTxn : St :=
  { emptySt with transactions := [txnEntry10], nextId := 2 }

/-! ### Helper lemmas -/

/-- In a list with pairwise-distinct keys, searching for a member's key
finds exactly that member. -/
theorem find?_key_of_pairwise {α : Type} (f : α → Nat) (l : List α)
    (hl : l.Pairwise (fun a b => f a ≠ f b)) (r : α) (hr : r ∈ l) :
    l.find? (fun x => f x == f r) = some r := by
  induction l with
  | nil => simp at hr
  | cons h t ih =>
    rcases List.pairwise_cons.mp hl with ⟨hh, ht⟩
    rcases List.mem_cons.mp hr with rfl | hrt
    · simp [List.find?_cons]
    · have hne : (f h == f r) = false := by
        simp [hh r hrt]
      simp [List.find?_cons, hne, ih ht hrt]

/-- Summing via `foldl` equals the initial value plus the mapped sum. -/
theorem foldl_add_eq_sum {α : Type} (g : α → Int) (l : List α) (a : Int) :
    l.foldl (fun s x => s + g x) a = a + (l.map g).sum := by
  induction l generalizing a with
  | nil => simp
  | cons h t ih => simp [ih, add_assoc]

/-- The breakdown fold of the net-revenue handler computes, for each
category, the sum of the amounts of the expenses of that category. -/
theorem foldl_breakdown_eq_sum (l : List Expense)
    (b : ExpenseCategory → Int) (c : ExpenseCategory) :
    (l.foldl
      (fun breakdown e c' =>
        if c' == e.category then breakdown c' + e.amount else breakdown c')
      b) c
      = b c + ((l.filter (fun e => e.category == c)).map
          (fun e => e.amount)).sum := by
  induction l generalizing b with
  | nil => simp
  | cons e t ih =>
    simp only [List.foldl_cons, List.filter_cons]
    rw [ih]
    by_cases h : e.category = c
    · subst h
      simp [add_assoc]
    · have h1 : (c == e.category) = false := by
        simp [Ne.symm h]
      have h2 : (e.category == c) = false := by
        simp [h]
      simp [h1, h2]

/-- `upsertDailyStats` does not touch the transactions table. -/
theorem upsert_transactions (st : St) (s : InsertDailyStats) :
    (upsertDailyStats st s).1.transactions = st.transactions := by
  unfold upsertDailyStats
  rcases h : getDailyStats st (startOfDay s.date) with _ | ex <;> simp [h]

/-- `upsertDailyStats` does not touch the expenses table. -/
theorem upsert_expenses (st : St) (s : InsertDailyStats) :
    (upsertDailyStats st s).1.expenses = st.expenses := by
  unfold upsertDailyStats
  rcases h : getDailyStats st (startOfDay s.date) with _ | ex <;> simp [h]

/-- `upsertDailyStats` does not touch the inventory table. -/
theorem upsert_inventory (st : St) (s : InsertDailyStats) :
    (upsertDailyStats st s).1.inventory = st.inventory := by
  unfold upsertDailyStats
  rcases h : getDailyStats st (startOfDay s.date) with _ | ex <;> simp [h]

/-- `upsertDailyStats` does not touch the movements table. -/
theorem upsert_movements (st : St) (s : InsertDailyStats) :
    (upsertDailyStats st s).1.movements = st.movements := by
  unfold upsertDailyStats
  rcases h : getDailyStats st (startOfDay s.date) with _ | ex <;> simp [h]

/-- `updateStatsForTransaction` does not touch the transactions table. -/
theorem updateStats_transactions (st : St) (t : Txn) :
    (updateStatsForTransaction st t).transactions = st.transactions := by
  unfold updateStatsForTransaction
  exact upsert_transactions _ _

/-- `updateStatsForTransaction` does not touch the expenses table. -/
theorem updateStats_expenses (st : St) (t : Txn) :
    (updateStatsForTransaction st t).expenses = st.expenses := by
  unfold updateStatsForTransaction
  exact upsert_expenses _ _

/-! ### C2: subscription end-date derivation on create -/

/-- C2: creating a `subscription` transaction with no explicit end date
persists `subscriptionEndDate = date + 1 calendar month` (the current
time standing in for an absent date); an explicitly supplied end date is
kept unchanged; the returned row is the persisted one. -/
theorem createTransaction_subscription_end_date (st : St)
    (ins : InsertTransaction) (now : DateTime) :
    (ins.ttype = .subscription → ins.subscriptionEndDate = none →
      ((createTransaction st ins now).2).subscriptionEndDate
        = some (addMonths (ins.date.getD now) 1)) ∧
    (∀ e, ins.subscriptionEndDate = some e →
      ((createTransaction st ins now).2).subscriptionEndDate = some e) ∧
    (createTransaction st ins now).1.transactions
      = st.transactions ++ [(createTransaction st ins now).2] := by
  refine ⟨?_, ?_, ?_⟩
  · intro h1 h2
    simp [createTransaction, h1, h2]
  · intro e he
    have : (ins.subscriptionEndDate == none) = false := by
      simp [he]
    simp [createTransaction, this, he]
  · simp [createTransaction, updateStats_transactions]

/-- C2 witness: creating a subscription of amount 100 on 2024-01-10 with
no end date yields end date 2024-02-10; supplying 2024-03-15 keeps it. -/
theorem createTransaction_subscription_end_date_witness :
    ((createTransaction emptySt
        { ttype := .subscription, amount := 100, date := some dJan10,
          paymentMethod := "cash" } dJan20).2).subscriptionEndDate
      = some (addMonths ((some dJan10).getD dJan20) 1) ∧
    ((createTransaction emptySt
        { ttype := .subscription, amount := 100, date := some dJan10,
          paymentMethod := "cash",
          subscriptionEndDate := some dMar15 } dJan20).2).subscriptionEndDate
      = some dMar15 := by
  constructor
  · exact (createTransaction_subscription_end_date emptySt
      { ttype := .subscription, amount := 100, date := some dJan10,
        paymentMethod := "cash" } dJan20).1 rfl rfl
  · exact (createTransaction_subscription_end_date emptySt
      { ttype := .subscription, amount := 100, date := some dJan10,
        paymentMethod := "cash",
        subscriptionEndDate := some dMar15 } dJan20).2.1 dMar15 rfl

/-! ### C4: removeStock failure modes perform no mutation -/

/-- C4: `removeStock` with a requested quantity above the on-hand
quantity fails with `insufficientStock` and leaves the whole store
untouched; with no inventory row for the product it fails with
`notFound`, likewise without writing anything. -/
theorem removeStock_guards (st : St) (pid : Nat) (qty : Int) (uid : Nat)
    (reason : Option String) (txid : Option Nat) (now : DateTime)
    (hq : 0 < qty) :
    (∀ inv, getInventoryItemByProductId st pid = some inv →
      inv.quantity < qty →
      removeStock st pid qty uid reason txid now
        = (st, .error .insufficientStock)) ∧
    (getInventoryItemByProductId st pid = none →
      removeStock st pid qty uid reason txid now = (st, .error .notFound)) := by
  have hq' : ¬ qty ≤ 0 := by omega
  constructor
  · intro inv hfind hlt
    simp [removeStock, hq', hfind, hlt]
  · intro hnone
    simp [removeStock, hq', hnone]

/-- C4 witness: on a store holding 5 units of product 1, removing 10
fails with `insufficientStock` and removing from the unknown product 2
fails with `notFound`, both leaving the store unchanged. -/
theorem removeStock_guards_witness :
    removeStock stInv5 1 10 1 none none dJan10
        = (stInv5, .error .insufficientStock) ∧
    removeStock stInv5 2 10 1 none none dJan10
        = (stInv5, .error .notFound) := by
  constructor
  · exact (removeStock_guards stInv5 1 10 1 none none dJan10
      (by decide)).1 invRow5 (by decide) (by decide)
  · exact (removeStock_guards stInv5 2 10 1 none none dJan10
      (by decide)).2 (by decide)

/-- Replacing by a key that no element carries is the identity map. -/
theorem map_replace_of_absent_key {α : Type} (f : α → Nat) (l : List α)
    (i : Nat) (g : α) (h : ∀ x ∈ l, f x ≠ i) :
    l.map (fun x => if f x == i then g else x) = l := by
  induction l with
  | nil => rfl
  | cons hd t ih =>
    have h1 : (f hd == i) = false := by
      simp [h hd (List.mem_cons_self hd t)]
    simp only [List.map_cons, h1, if_neg]
    rw [ih (fun x hx => h x (List.mem_cons_of_mem hd hx))]
    simp

/-- A key that no element carries is not found. -/
theorem find?_key_none {α : Type} (f : α → Nat) (l : List α) (i : Nat)
    (h : ∀ x ∈ l, f x ≠ i) : l.find? (fun x => f x == i) = none := by
  apply List.find?_eq_none.mpr
  intro x hx
  simp [h x hx]

/-! ### C6: adjustStock semantics -/

/-- C6: for `newQuantity ≥ 0`, `adjustStock` on an existing inventory row
at quantity `q` sets the quantity to `newQuantity`, appends an `adjust`
movement carrying the delta `newQuantity − q` (also when the delta is 0),
and refreshes `lastRestockDate` exactly when the delta is positive; when
no row exists, a row (quantity 0, `minThreshold` 5) is auto-created
first, and the adjust then proceeds against it (delta `newQuantity − 0`). -/
theorem adjustStock_spec (st : St) (pid : Nat) (newQ : Int) (uid : Nat)
    (reason : Option String) (now : DateTime) (failE : Bool)
    (h0 : 0 ≤ newQ) :
    (InvIdsNodup st → ∀ r, getInventoryItemByProductId st pid = some r →
      adjustStock st pid newQ uid reason now failE
        = ({ st with
            inventory := st.inventory.map (fun x =>
              if x.id == r.id then
                { r with
                  quantity := newQ,
                  lastRestockDate :=
                    if newQ - r.quantity > 0 then some now
                    else r.lastRestockDate }
              else x),
            movements := st.movements ++
              [{ id := st.nextId, inventoryId := r.id, productId := pid,
                 quantity := newQ - r.quantity, actionType := .adjust,
                 reason := reason, performedById := uid,
                 transactionId := none, timestamp := now }],
            nextId := st.nextId + 1 },
          .ok
            ({ r with
               quantity := newQ,
               lastRestockDate :=
                 if newQ - r.quantity > 0 then some now
                 else r.lastRestockDate },
             { id := st.nextId, inventoryId := r.id, productId := pid,
               quantity := newQ - r.quantity, actionType := .adjust,
               reason := reason, performedById := uid,
               transactionId := none, timestamp := now }))) ∧
    (InvIdsBounded st → getInventoryItemByProductId st pid = none →
      adjustStock st pid newQ uid reason now failE
        = ({ st with
            inventory := st.inventory ++
              [{ id := st.nextId, productId := pid, quantity := newQ,
                 minThreshold := 5, purchasePrice := none,
                 expirationDate := none, lastRestockDate := some now }],
            movements := st.movements ++
              [{ id := st.nextId + 1, inventoryId := st.nextId,
                 productId := pid, quantity := newQ, actionType := .adjust,
                 reason := reason, performedById := uid,
                 transactionId := none, timestamp := now }],
            nextId := st.nextId + 2 },
          .ok
            ({ id := st.nextId, productId := pid, quantity := newQ,
               minThreshold := 5, purchasePrice := none,
               expirationDate := none, lastRestockDate := some now },
             { id := st.nextId + 1, inventoryId := st.nextId,
               productId := pid, quantity := newQ, actionType := .adjust,
               reason := reason, performedById := uid,
               transactionId := none, timestamp := now }))) := by
  have hneg : ¬ newQ < 0 := by omega
  constructor
  · intro hnodup r hfind
    have hr : r ∈ st.inventory := List.mem_of_find?_eq_some hfind
    have hfid : st.inventory.find? (fun x => x.id == r.id) = some r :=
      find?_key_of_pairwise (fun x => x.id) st.inventory hnodup r hr
    by_cases hc : newQ - r.quantity > 0 <;>
      simp [adjustStock, hneg, hfind, updateInventoryItem, hfid, hc]
  · intro hbound hnone
    have hfresh : ∀ x ∈ st.inventory, x.id ≠ st.nextId := by
      intro x hx
      have := hbound x hx
      omega
    simp only [getInventoryItemByProductId] at hnone
    have hfid : (st.inventory ++
        [({ id := st.nextId, productId := pid, quantity := 0,
            minThreshold := 5, purchasePrice := none,
            expirationDate := none,
            lastRestockDate := some now } : InventoryRow)]).find?
          (fun x => x.id == st.nextId)
        = some ({ id := st.nextId, productId := pid, quantity := 0,
                  minThreshold := 5, purchasePrice := none,
                  expirationDate := none,
                  lastRestockDate := some now } : InventoryRow) := by
      have hfnone : st.inventory.find? (fun x => x.id == st.nextId)
          = none := by
        apply List.find?_eq_none.mpr
        intro x hx
        simp [hfresh x hx]
      rw [List.find?_append, hfnone]
      simp
    have hmap := map_replace_of_absent_key (fun x => x.id) st.inventory
      st.nextId
      { id := st.nextId, productId := pid, quantity := newQ,
        minThreshold := 5, purchasePrice := none, expirationDate := none,
        lastRestockDate := some now } hfresh
    simp only [beq_iff_eq] at hmap
    by_cases hc : newQ > 0 <;>
      simp [adjustStock, hneg, hnone, createInventoryItem,
        getInventoryItemByProductId, updateInventoryItem,
        recordPurchaseExpense, hfid, hc, hmap]

/-- C6 witness: adjusting product 1 from 12 on-hand to 0 logs a movement
of quantity −12 with action `adjust` and sets the quantity to 0. -/
theorem adjustStock_spec_witness :
    adjustStock stInv12 1 0 1 none dJan10 false
      = ({ stInv12 with
          inventory := [{ invRow12 with quantity := 0 }],
          movements := [{
            id := 2, inventoryId := 1, productId := 1, quantity := -12,
            actionType := .adjust, reason := none, performedById := 1,
            transactionId := none, timestamp := dJan10 }],
          nextId := 3 },
        .ok
          ({ invRow12 with quantity := 0 },
           { id := 2, inventoryId := 1, productId := 1, quantity := -12,
             actionType := .adjust, reason := none, performedById := 1,
             transactionId := none, timestamp := dJan10 })) := by
  have h := (adjustStock_spec stInv12 1 0 1 none dJan10 false
    (by decide)).1 (by decide) invRow12 (by decide)
  rw [h]
  decide

/-! ### C5: the purchase-expense side effect never fails addStock -/

/-- C5: a successful `addStock` on an inventory row with a positive
purchase price records a `supplies` expense of `purchasePrice * qty`,
and an error raised while inserting that expense is swallowed: with the
insert failing, `addStock` still succeeds with the identical updated
inventory row and movement, and only the expense row is missing. -/
theorem addStock_expense_effect (st : St) (pid : Nat) (qty : Int)
    (uid : Nat) (reason : Option String) (now : DateTime)
    (r : InventoryRow) (p : Int) (prod : Product)
    (hq : 0 < qty) (hnodup : InvIdsNodup st)
    (hfind : getInventoryItemByProductId st pid = some r)
    (hp : r.purchasePrice = some p) (hpp : 0 < p)
    (hprod : getProduct st pid = some prod) :
    addStock st pid qty uid reason now false
      = ({ st with
          inventory := st.inventory.map (fun x =>
            if x.id == r.id then
              { r with
                quantity := r.quantity + qty,
                lastRestockDate := some now }
            else x),
          movements := st.movements ++
            [{ id := st.nextId, inventoryId := r.id, productId := pid,
               quantity := qty, actionType := .add, reason := reason,
               performedById := uid, transactionId := none,
               timestamp := now }],
          expenses := st.expenses ++
            [{ id := st.nextId + 1, amount := p * qty,
               category := .supplies, date := now,
               description := "Achat de stock: " ++ prod.name ++ " ("
                 ++ toString qty ++ " unités)",
               paymentMethod := "cash", createdById := uid }],
          nextId := st.nextId + 2 },
        .ok
          ({ r with
             quantity := r.quantity + qty, lastRestockDate := some now },
           { id := st.nextId, inventoryId := r.id, productId := pid,
             quantity := qty, actionType := .add, reason := reason,
             performedById := uid, transactionId := none,
             timestamp := now })) ∧
    addStock st pid qty uid reason now true
      = ({ st with
          inventory := st.inventory.map (fun x =>
            if x.id == r.id then
              { r with
                quantity := r.quantity + qty,
                lastRestockDate := some now }
            else x),
          movements := st.movements ++
            [{ id := st.nextId, inventoryId := r.id, productId := pid,
               quantity := qty, actionType := .add, reason := reason,
               performedById := uid, transactionId := none,
               timestamp := now }],
          nextId := st.nextId + 1 },
        .ok
          ({ r with
             quantity := r.quantity + qty, lastRestockDate := some now },
           { id := st.nextId, inventoryId := r.id, productId := pid,
             quantity := qty, actionType := .add, reason := reason,
             performedById := uid, transactionId := none,
             timestamp := now })) := by
  have hq' : ¬ qty ≤ 0 := by omega
  have hr : r ∈ st.inventory := List.mem_of_find?_eq_some hfind
  have hfid : st.inventory.find? (fun x => x.id == r.id) = some r :=
    find?_key_of_pairwise (fun x => x.id) st.inventory hnodup r hr
  simp only [getProduct] at hprod
  constructor <;>
    simp [addStock, hq', hfind, updateInventoryItem, hfid, hp, hpp,
      getProduct, hprod, recordPurchaseExpense, createExpense]

/-- C5 witness: adding 3 units of product 1 (price 7, 5 on hand) succeeds
with and without the expense insert failing; the successful run records a
21-dirham `supplies` expense, the failing run records none, and the
inventory row and movement are identical in both runs. -/
theorem addStock_expense_effect_witness :
    addStock stInvPriced 1 3 1 none dJan10 false
      = ({ stInvPriced with
          inventory := [{ invRowPriced with
            quantity := 8, lastRestockDate := some dJan10 }],
          movements := [{
            id := 2, inventoryId := 1, productId := 1, quantity := 3,
            actionType := .add, reason := none, performedById := 1,
            transactionId := none, timestamp := dJan10 }],
          expenses := [{
            id := 3, amount := 21, category := .supplies, date := dJan10,
            description := "Achat de stock: Café expresso (3 unités)",
            paymentMethod := "cash", createdById := 1 }],
          nextId := 4 },
        .ok
          ({ invRowPriced with
             quantity := 8, lastRestockDate := some dJan10 },
           { id := 2, inventoryId := 1, productId := 1, quantity := 3,
             actionType := .add, reason := none, performedById := 1,
             transactionId := none, timestamp := dJan10 })) ∧
    addStock stInvPriced 1 3 1 none dJan10 true
      = ({ stInvPriced with
          inventory := [{ invRowPriced with
            quantity := 8, lastRestockDate := some dJan10 }],
          movements := [{
            id := 2, inventoryId := 1, productId := 1, quantity := 3,
            actionType := .add, reason := none, performedById := 1,
            transactionId := none, timestamp := dJan10 }],
          nextId := 3 },
        .ok
          ({ invRowPriced with
             quantity := 8, lastRestockDate := some dJan10 },
           { id := 2, inventoryId := 1, productId := 1, quantity := 3,
             actionType := .add, reason := none, performedById := 1,
             transactionId := none, timestamp := dJan10 })) := by
  have h := addStock_expense_effect stInvPriced 1 3 1 none dJan10
    invRowPriced 7 productRow (by decide) (by decide) (by decide)
    (by decide) (by decide) (by decide)
  constructor
  · rw [h.1]
    decide
  · rw [h.2]
    decide

/-! ### C10: positivity guards and the non-negative inventory invariant -/

/-- The purchase-expense block never touches the inventory table. -/
theorem recordPurchaseExpense_inventory (st : St) (pp : Option Int)
    (pid : Nat) (k : Int) (describe : String → String) (cb : Nat)
    (now : DateTime) (failE : Bool) :
    (recordPurchaseExpense st pp pid k describe cb now failE).inventory
      = st.inventory := by
  unfold recordPurchaseExpense
  rcases pp with _ | p
  · rfl
  · by_cases hp : p > 0
    · simp only [hp, if_true]
      rcases getProduct st pid with _ | prod
      · rfl
      · cases failE <;> simp [createExpense]
    · simp [hp]

/-- Updating an inventory row with an explicit non-negative quantity
preserves non-negativity of all quantities. -/
theorem invNonneg_updateInventoryItem (st : St) (i : Nat)
    (patch : InventoryPatch) (q : Int) (hq : patch.quantity = some q)
    (h0 : 0 ≤ q) (hst : InvNonneg st) :
    InvNonneg (updateInventoryItem st i patch).1 := by
  simp only [updateInventoryItem]
  split
  · exact hst
  · intro x hx
    simp only [List.mem_map] at hx
    obtain ⟨y, hy, hxy⟩ := hx
    by_cases hid : (y.id == i) = true
    · rw [← hxy]
      simp only [hid, if_true, hq, Option.getD_some]
      exact h0
    · rw [← hxy]
      simp only [Bool.not_eq_true] at hid
      simp only [hid, Bool.false_eq_true, if_false]
      exact hst y hy

/-- The auto-creation of a missing inventory row performed by `addStock`
and `adjustStock`: appends a (quantity 0, minThreshold 5) row. -/
theorem createInventoryItem_auto (st : St) (pid : Nat) (now : DateTime)
    (failE : Bool) (hnone : getInventoryItemByProductId st pid = none) :
    createInventoryItem st
      { productId := pid, quantity := some 0, minThreshold := some 5,
        lastRestockDate := some now } now failE
      = ({ st with
          inventory := st.inventory ++
            [{ id := st.nextId, productId := pid, quantity := 0,
               minThreshold := 5, purchasePrice := none,
               expirationDate := none, lastRestockDate := some now }],
          nextId := st.nextId + 1 },
        .ok { id := st.nextId, productId := pid, quantity := 0,
              minThreshold := 5, purchasePrice := none,
              expirationDate := none, lastRestockDate := some now }) := by
  simp [createInventoryItem, hnone, recordPurchaseExpense]

/-- The state coming out of the inventory-lookup-or-create step of
`addStock`/`adjustStock` keeps all quantities non-negative, and the row
it returns has non-negative quantity. -/
theorem invNonneg_lookupOrCreate (st : St) (pid : Nat) (now : DateTime)
    (failE : Bool) (h : InvNonneg st) (st0 : St)
    (res : Except StorageError InventoryRow)
    (hcr : (match getInventoryItemByProductId st pid with
      | some i => (st, Except.ok i)
      | none => createInventoryItem st
          { productId := pid, quantity := some 0, minThreshold := some 5,
            lastRestockDate := some now } now failE) = (st0, res)) :
    InvNonneg st0 ∧ ∀ i, res = .ok i → 0 ≤ i.quantity := by
  rcases hfind : getInventoryItemByProductId st pid with _ | i
  · rw [hfind] at hcr
    rw [createInventoryItem_auto st pid now failE hfind] at hcr
    injection hcr with h1 h2
    subst h1
    subst h2
    constructor
    · intro x hx
      rcases List.mem_append.mp hx with hx | hx
      · exact h x hx
      · simp at hx
        rw [hx]
    · intro i hi
      injection hi with hi
      rw [← hi]
  · rw [hfind] at hcr
    injection hcr with h1 h2
    subst h1
    subst h2
    refine ⟨h, ?_⟩
    intro j hj
    injection hj with hj
    rw [← hj]
    exact h i (List.mem_of_find?_eq_some hfind)

/-- `addStock` preserves non-negativity of inventory quantities. -/
theorem invNonneg_addStock (st : St) (pid : Nat) (qty : Int) (uid : Nat)
    (reason : Option String) (now : DateTime) (failE : Bool)
    (h : InvNonneg st) :
    InvNonneg (addStock st pid qty uid reason now failE).1 := by
  by_cases hq : qty ≤ 0
  · simpa [addStock, hq] using h
  · simp only [addStock, if_neg hq]
    split
    · rename_i st0 e hcr
      exact (invNonneg_lookupOrCreate st pid now failE h st0 (.error e)
        hcr).1
    · rename_i st0 invItem hcr
      obtain ⟨h0, hok⟩ :=
        invNonneg_lookupOrCreate st pid now failE h st0 (.ok invItem) hcr
      have hq0 : 0 ≤ invItem.quantity + qty := by
        have := hok invItem rfl
        omega
      have h1 := invNonneg_updateInventoryItem st0 invItem.id
        { quantity := some (invItem.quantity + qty),
          lastRestockDate := some (some now) } _ rfl hq0 h0
      split
      · rename_i st1 hupd
        rw [hupd] at h1
        exact h1
      · rename_i st1 u hupd
        rw [hupd] at h1
        intro x hx
        rw [recordPurchaseExpense_inventory] at hx
        exact h1 x hx

/-- `removeStock` preserves non-negativity of inventory quantities. -/
theorem invNonneg_removeStock (st : St) (pid : Nat) (qty : Int) (uid : Nat)
    (reason : Option String) (txid : Option Nat) (now : DateTime)
    (h : InvNonneg st) :
    InvNonneg (removeStock st pid qty uid reason txid now).1 := by
  by_cases hq : qty ≤ 0
  · simpa [removeStock, hq] using h
  · simp only [removeStock, if_neg hq]
    split
    · exact h
    · rename_i i hfind
      by_cases hlt : i.quantity < qty
      · simpa [hlt] using h
      · rw [if_neg hlt]
        have h1 := invNonneg_updateInventoryItem st i.id
          { quantity := some (i.quantity - qty) } _ rfl (by omega) h
        split
        · rename_i st1 hupd
          rw [hupd] at h1
          exact h1
        · rename_i st1 u hupd
          rw [hupd] at h1
          exact h1

/-- `adjustStock` preserves non-negativity of inventory quantities. -/
theorem invNonneg_adjustStock (st : St) (pid : Nat) (newQ : Int)
    (uid : Nat) (reason : Option String) (now : DateTime) (failE : Bool)
    (h : InvNonneg st) :
    InvNonneg (adjustStock st pid newQ uid reason now failE).1 := by
  by_cases hq : newQ < 0
  · simpa [adjustStock, hq] using h
  · have hq0 : 0 ≤ newQ := by omega
    simp only [adjustStock, if_neg hq]
    split
    · rename_i st0 e hcr
      exact (invNonneg_lookupOrCreate st pid now failE h st0 (.error e)
        hcr).1
    · rename_i st0 invItem hcr
      obtain ⟨h0, _⟩ :=
        invNonneg_lookupOrCreate st pid now failE h st0 (.ok invItem) hcr
      have h1 := invNonneg_updateInventoryItem st0 invItem.id
        { quantity := some newQ,
          lastRestockDate :=
            if newQ - invItem.quantity > 0 then some (some now)
            else none } _ rfl hq0 h0
      split
      · rename_i st1 hupd
        rw [hupd] at h1
        exact h1
      · rename_i st1 u hupd
        rw [hupd] at h1
        exact h1

/-- C10: `addStock` and `removeStock` reject a non-positive quantity
before touching any state (the whole store is returned unchanged with an
error), and consequently every inventory quantity stays non-negative
under any sequence of `addStock`, `removeStock` and `adjustStock`
operations. -/
theorem stock_quantity_guard_and_nonneg (st : St) (pid : Nat) (qty : Int)
    (uid : Nat) (reason : Option String) (txid : Option Nat)
    (now : DateTime) (failE : Bool) (ops : List StockOp) :
    (qty ≤ 0 →
      addStock st pid qty uid reason now failE
          = (st, .error .invalidQuantity) ∧
      removeStock st pid qty uid reason txid now
          = (st, .error .invalidQuantity)) ∧
    (InvNonneg st → InvNonneg (runStockOps st ops)) := by
  constructor
  · intro hq
    exact ⟨by simp [addStock, hq], by simp [removeStock, hq]⟩
  · intro h
    induction ops generalizing st with
    | nil => exact h
    | cons op rest ih =>
      show InvNonneg (runStockOps (applyStockOp st op) rest)
      apply ih
      rcases op with ⟨p, q, u, rs, n, f⟩ | ⟨p, q, u, rs, tx, n⟩ |
        ⟨p, q, u, rs, n, f⟩
      · exact invNonneg_addStock st p q u rs n f h
      · exact invNonneg_removeStock st p q u rs tx n h
      · exact invNonneg_adjustStock st p q u rs n f h

/-- C10 witness: with a non-positive quantity both mutators reject on the
sample store, and a concrete add/remove/adjust sequence keeps the sample
inventory non-negative. -/
theorem stock_quantity_guard_and_nonneg_witness :
    (addStock stInv5 1 0 1 none dJan10 false
        = (stInv5, .error .invalidQuantity) ∧
      removeStock stInv5 1 0 1 none none dJan10
        = (stInv5, .error .invalidQuantity)) ∧
    InvNonneg (runStockOps stInv5
      [.add 1 3 1 none dJan10 false, .remove 1 8 1 none none dJan10,
       .adjust 2 4 1 none dJan10 false]) := by
  have h := stock_quantity_guard_and_nonneg stInv5 1 0 1 none none dJan10
    false [.add 1 3 1 none dJan10 false, .remove 1 8 1 none none dJan10,
      .adjust 2 4 1 none dJan10 false]
  exact ⟨h.1 (by decide), h.2 (by decide)⟩

/-! ### C3: subscription end-date derivation on update -/

/-- C3 counterexample: the original transaction of `stSubExplicit`
already carries the explicit end date 2024-03-15, the patch merely sets
`type = subscription` without an end date, yet the update overwrites the
stored end date with the re-derived 2024-02-10 (one month after the
original's date): the code never consults the pre-existing value. -/
theorem updateTransaction_rederives_existing_end_date :
    ((updateTransaction stSubExplicit 1 { ttype := some .subscription }
        dJan20).2.map (fun t => t.subscriptionEndDate))
        = some (some ⟨2024, 2, 10, 0⟩) ∧
    txnSubExplicit.subscriptionEndDate = some dMar15 ∧
    (⟨2024, 2, 10, 0⟩ : DateTime) ≠ dMar15 := by
  refine ⟨?_, rfl, by decide⟩
  decide

/-- C3 (amended): whenever the patch sets `type = subscription` and the
patch itself carries no end date, the update (re)derives
`subscriptionEndDate` as one month after `patch.date` if given, else the
original transaction's date — regardless of any end date already stored
on the original transaction, which is overwritten. -/
theorem updateTransaction_derives_end_date (st : St) (id : Nat)
    (data : TxnPatch) (now : DateTime) (orig : Txn)
    (hfound : getTransaction st id = some orig)
    (htype : data.ttype = some .subscription)
    (hend : data.subscriptionEndDate = none) :
    ∃ upd, (updateTransaction st id data now).2 = some upd ∧
      upd.subscriptionEndDate
        = some (addMonths (data.date.getD orig.date) 1) := by
  simp only [updateTransaction, hfound]
  have hcond : (data.ttype == some TransactionType.subscription &&
      data.subscriptionEndDate == none) = true := by
    simp [htype, hend]
  simp only [hcond, if_true]
  have : data.amount.isSome = true ∨ data.date.isSome = true ∨
      data.ttype.isSome = true := by
    right; right
    simp [htype]
  rcases hst : (data.amount.isSome || data.date.isSome || data.ttype.isSome)
    with _ | _
  · exfalso
    rcases this with h | h | h <;> simp [h] at hst
  · simp only [hst, if_true]
    exact ⟨_, rfl, by simp [applyPatch]⟩

/-- C3 witness: on the sample store, patching transaction 1 with
`type = subscription` and `date = 2024-01-20` yields an end date of
2024-02-20 (one month after the patch date). -/
theorem updateTransaction_derives_end_date_witness :
    ∃ upd, (updateTransaction stSubExplicit 1
        { ttype := some .subscription, date := some dJan20 } dJan10).2
        = some upd ∧
      upd.subscriptionEndDate
        = some (addMonths ((some dJan20).getD txnSubExplicit.date) 1) :=
  updateTransaction_derives_end_date stSubExplicit 1
    { ttype := some .subscription, date := some dJan20 } dJan10
    txnSubExplicit (by decide) rfl rfl

/-! ### C8: the net-revenue report -/

/-- C8: the net-revenue endpoint returns the sum of
`DailyStats.totalRevenue` over the requested day range as `totalRevenue`,
the sum of the expense amounts over the same range as `totalExpenses`,
their difference as `netRevenue`, and a breakdown mapping each category
to the sum of the amounts of that category's expenses in the range. -/
theorem netRevenue_spec (st : St) (s e : DateTime) :
    (netRevenueHandler st s e).totalRevenue
      = ((getDailyStatsByRange st s e).map
          (fun r => r.totalRevenue)).sum ∧
    (netRevenueHandler st s e).totalExpenses
      = ((getExpensesByDateRange st s e).map (fun x => x.amount)).sum ∧
    (netRevenueHandler st s e).netRevenue
      = (netRevenueHandler st s e).totalRevenue
        - (netRevenueHandler st s e).totalExpenses ∧
    ∀ c, (netRevenueHandler st s e).expenseBreakdown c
      = (((getExpensesByDateRange st s e).filter
          (fun x => x.category == c)).map (fun x => x.amount)).sum := by
  refine ⟨?_, ?_, rfl, ?_⟩
  · simp [netRevenueHandler, foldl_add_eq_sum]
  · simp [netRevenueHandler, foldl_add_eq_sum]
  · intro c
    simp only [netRevenueHandler]
    rw [foldl_breakdown_eq_sum]
    simp

/-! ### Daily-stats aggregator machinery -/

/-- `startOfDay` is idempotent. -/
theorem startOfDay_idem (d : DateTime) :
    startOfDay (startOfDay d) = startOfDay d := rfl

/-- In a list with pairwise-distinct keys, two members with the same key
are the same element. -/
theorem eq_of_key_eq {α : Type} (f : α → Nat) (l : List α)
    (hl : l.Pairwise (fun a b => f a ≠ f b)) (x ex : α)
    (hx : x ∈ l) (hex : ex ∈ l) (h : f x = f ex) : x = ex := by
  induction l with
  | nil => simp at hx
  | cons hd t ih =>
    rcases List.pairwise_cons.mp hl with ⟨hh, ht⟩
    rcases List.mem_cons.mp hx with hx1 | hx1
    · rcases List.mem_cons.mp hex with hex1 | hex1
      · rw [hx1, hex1]
      · rw [hx1] at h
        exact absurd h (hh ex hex1)
    · rcases List.mem_cons.mp hex with hex1 | hex1
      · rw [hex1] at h
        exact absurd h.symm (hh x hx1)
      · exact ih ht hx1 hex1

/-- A map that preserves the predicate and fixes every
predicate-satisfying element does not change the result of `find?`. -/
theorem find?_map_of_pred {α : Type} (t : List α) (f : α → α)
    (P : α → Bool) (hP : ∀ x ∈ t, P (f x) = P x)
    (hfix : ∀ x ∈ t, P x = true → f x = x) :
    (t.map f).find? P = t.find? P := by
  induction t with
  | nil => rfl
  | cons hd tl ih =>
    have h1 := hP hd (List.mem_cons_self hd tl)
    by_cases hp : P hd = true
    · have h2 := hfix hd (List.mem_cons_self hd tl) hp
      simp [List.find?_cons, h1, hp, h2]
    · have hp' : P hd = false := by
        cases hpp : P hd
        · rfl
        · exact absurd hpp hp
      simp only [List.map_cons, List.find?_cons, h1, hp']
      exact ih (fun x hx => hP x (List.mem_cons_of_mem hd hx))
        (fun x hx => hfix x (List.mem_cons_of_mem hd hx))

/-- Replacing by id in a stats table with distinct ids is the same as
replacing the found element itself. -/
theorem stats_map_replace_elem (l : List DailyStatsRow)
    (hl : l.Pairwise (fun a b => a.id ≠ b.id)) (ex : DailyStatsRow)
    (hex : ex ∈ l) (g : DailyStatsRow) :
    l.map (fun x => if x.id == ex.id then g else x)
      = l.map (fun x => if x = ex then g else x) := by
  apply List.map_congr_left
  intro x hx
  by_cases h : x.id = ex.id
  · have hxe : x = ex := eq_of_key_eq (fun r => r.id) l hl x ex hx hex h
    simp [h, hxe]
  · have hne : ¬ x = ex := fun e => h (by rw [e])
    simp [h, hne]

/-- Effect on `find?`-by-date of replacing the row found at date `D` by a
row with the same date. -/
theorem find?_date_replace_elem (l : List DailyStatsRow) (D : DateTime)
    (ex merged : DailyStatsRow) (hmdate : merged.date = ex.date)
    (d : DateTime)
    (hfind : l.find? (fun r => r.date == D) = some ex) :
    (l.map (fun r => if r = ex then merged else r)).find?
        (fun r => r.date == d)
      = if d = D then some merged
        else l.find? (fun r => r.date == d) := by
  have hexD : ex.date = D := by
    have := List.find?_some hfind
    simpa using this
  revert hfind
  induction l with
  | nil =>
    intro hfind
    simp at hfind
  | cons h t ih =>
    intro hfind
    by_cases hh : (h.date == D) = true
    · have hex : h = ex := by
        have h0 := hfind
        simp only [List.find?_cons, hh, cond_true] at h0
        exact Option.some.inj h0
      by_cases hd : d = D
      · subst hd
        have hmD : (merged.date == d) = true := by
          simp [hmdate, hexD]
        simp [hex, List.find?_cons, hmD]
      · have hmd : (merged.date == d) = false := by
          rw [hmdate, hexD]
          exact beq_eq_false_iff_ne.mpr (fun e => hd e.symm)
        have hhd : (ex.date == d) = false := by
          rw [hexD]
          exact beq_eq_false_iff_ne.mpr (fun e => hd e.symm)
        rw [if_neg hd, hex]
        simp only [List.map_cons]
        have hrepl : (if True then merged else ex) = merged :=
          if_pos trivial
        rw [hrepl]
        simp only [List.find?_cons, hmd, hhd, cond_false]
        apply find?_map_of_pred
        · intro x hx
          by_cases hxe : x = ex
          · simp [hxe, hmdate]
          · simp [hxe]
        · intro x hx hPx
          have hxd : x.date = d := by simpa using hPx
          have hxe : ¬ x = ex := by
            intro e
            rw [e, hexD] at hxd
            exact hd hxd.symm
          simp [hxe]
    · have hfind' : t.find? (fun r => r.date == D) = some ex := by
        simpa [List.find?_cons, hh] using hfind
      have hhex : h ≠ ex := by
        intro e
        rw [e] at hh
        simp [hexD] at hh
      by_cases hhd : (h.date == d) = true
      · have hdD : ¬ d = D := by
          intro e
          subst e
          exact hh hhd
        simp [List.map_cons, hhex, List.find?_cons, hhd, hdD]
      · have hhd' : (h.date == d) = false := by
          cases hx : (h.date == d)
          · rfl
          · exact absurd hx hhd
        simp only [List.map_cons, if_neg hhex, List.find?_cons, hhd',
          cond_false]
        exact ih hfind'

/-- Full-row upsert (`upsertDailyStats` fed a complete row with a
day-floored date, as all internal callers do): the row for that day now
carries exactly the supplied values, every other day is untouched, and
table well-formedness is preserved. -/
theorem upsert_full_cases (st : St) (s : DailyStatsRow)
    (hwf : StatsWF st) (hs : startOfDay s.date = s.date) :
    (∀ d, startOfDay d ≠ s.date →
      getDailyStats (upsertDailyStats st (toInsertStats s)).1 d
        = getDailyStats st d) ∧
    (∃ ex, getDailyStats (upsertDailyStats st (toInsertStats s)).1 s.date
        = some ex ∧ rowVals ex = rowVals s ∧ ex.date = s.date) ∧
    StatsWF (upsertDailyStats st (toInsertStats s)).1 ∧
    st.nextId ≤ (upsertDailyStats st (toInsertStats s)).1.nextId := by
  obtain ⟨hbound, hids, hdates, hfloor⟩ := hwf
  rcases hfind : getDailyStats st s.date with _ | ex₀
  · -- insert branch
    have hfind' : st.stats.find? (fun r => r.date == s.date) = none := by
      simpa [getDailyStats, hs] using hfind
    have hnone : ∀ x ∈ st.stats, (x.date == s.date) = false := by
      intro x hx
      have := List.find?_eq_none.mp hfind' x hx
      simpa using this
    simp only [upsertDailyStats, toInsertStats, hs, getDailyStats,
      Option.getD_some]
    simp only [hfind']
    refine ⟨?_, ?_, ?_, ?_⟩
    · intro d hd
      rw [List.find?_append]
      have hne : (s.date == startOfDay d) = false :=
        beq_eq_false_iff_ne.mpr (fun e => hd e.symm)
      simp [hne]
    · rw [List.find?_append, hfind']
      simp [rowVals]
    · refine ⟨?_, ?_, ?_, ?_⟩
      · intro r hr
        dsimp only at hr ⊢
        rcases List.mem_append.mp hr with hr | hr
        · have := hbound r hr
          omega
        · simp at hr
          rw [hr]
          simp
      · dsimp only
        rw [List.pairwise_append]
        refine ⟨hids, by simp, ?_⟩
        intro a ha b hb
        simp at hb
        rw [hb]
        have := hbound a ha
        simp
        omega
      · dsimp only
        rw [List.pairwise_append]
        refine ⟨hdates, by simp, ?_⟩
        intro a ha b hb
        simp at hb
        rw [hb]
        have := hnone a ha
        simp at this ⊢
        exact this
      · intro r hr
        dsimp only at hr
        rcases List.mem_append.mp hr with hr | hr
        · exact hfloor r hr
        · simp at hr
          rw [hr]
          exact hs
    · simp
  · -- update branch
    have hfind' : st.stats.find? (fun r => r.date == s.date) = some ex₀ := by
      simpa [getDailyStats, hs] using hfind
    have hexmem : ex₀ ∈ st.stats := List.mem_of_find?_eq_some hfind'
    have hexdate : ex₀.date = s.date := by
      simpa using List.find?_some hfind'
    simp only [upsertDailyStats, toInsertStats, hs, getDailyStats,
      Option.getD_some]
    simp only [hfind', Option.getD_some]
    rw [stats_map_replace_elem st.stats hids ex₀ hexmem]
    refine ⟨?_, ?_, ?_, ?_⟩
    · intro d hd
      rw [find?_date_replace_elem st.stats s.date ex₀ _ (by rfl)
        (startOfDay d) hfind']
      rw [if_neg hd]
    · rw [find?_date_replace_elem st.stats s.date ex₀ _ (by rfl) s.date
        hfind']
      simp [rowVals, hexdate]
    · refine ⟨?_, ?_, ?_, ?_⟩
      · intro r hr
        dsimp only at hr ⊢
        obtain ⟨y, hy, hyr⟩ := List.mem_map.mp hr
        rw [← hyr]
        by_cases hxe : y = ex₀
        · rw [if_pos hxe]
          exact hbound ex₀ hexmem
        · rw [if_neg hxe]
          exact hbound y hy
      · dsimp only
        refine List.Pairwise.map _ (fun a b hab => ?_) hids
        by_cases ha : a = ex₀ <;> by_cases hb : b = ex₀
        · rw [ha, hb] at hab
          exact absurd rfl hab
        · rw [if_pos ha, if_neg hb]
          rw [ha] at hab
          exact hab
        · rw [if_neg ha, if_pos hb]
          rw [hb] at hab
          exact hab
        · rw [if_neg ha, if_neg hb]
          exact hab
      · dsimp only
        refine List.Pairwise.map _ (fun a b hab => ?_) hdates
        by_cases ha : a = ex₀ <;> by_cases hb : b = ex₀
        · rw [ha, hb] at hab
          exact absurd rfl hab
        · rw [if_pos ha, if_neg hb]
          rw [ha] at hab
          exact hab
        · rw [if_neg ha, if_pos hb]
          rw [hb] at hab
          exact hab
        · rw [if_neg ha, if_neg hb]
          exact hab
      · intro r hr
        dsimp only at hr
        obtain ⟨y, hy, hyr⟩ := List.mem_map.mp hr
        rw [← hyr]
        by_cases hxe : y = ex₀
        · rw [if_pos hxe]
          have := hfloor ex₀ hexmem
          simpa using this
        · rw [if_neg hxe]
          exact hfloor y hy
    · simp

/-- `getDailyStats` only depends on the day of its argument. -/
theorem getDailyStats_day_congr (st : St) {d e : DateTime}
    (h : startOfDay d = startOfDay e) :
    getDailyStats st d = getDailyStats st e := by
  simp [getDailyStats, h]

/-- `statsView` only depends on the day of its argument. -/
theorem statsView_day_congr (st : St) {d e : DateTime}
    (h : startOfDay d = startOfDay e) :
    statsView st d = statsView st e := by
  simp only [statsView, getDailyStats_day_congr st h]

/-- `addTxnToStats` keeps the key date. -/
theorem date_addTxnToStats (s : DailyStatsRow) (t : Txn) :
    (addTxnToStats s t).date = s.date := by
  cases h : t.ttype <;> simp [addTxnToStats, h]

/-- `subTxnFromStats` keeps the key date. -/
theorem date_subTxnFromStats (s : DailyStatsRow) (t : Txn) :
    (subTxnFromStats s t).date = s.date := by
  cases h : t.ttype <;> simp [subTxnFromStats, h]

/-- `addTxnToStats` at the level of value vectors. -/
theorem rowVals_addTxnToStats (s : DailyStatsRow) (t : Txn) :
    rowVals (addTxnToStats s t) = addVals (rowVals s) t := by
  cases h : t.ttype <;> simp [addTxnToStats, addVals, rowVals, h]

/-- `subTxnFromStats` at the level of value vectors. -/
theorem rowVals_subTxnFromStats (s : DailyStatsRow) (t : Txn) :
    rowVals (subTxnFromStats s t) = subVals (rowVals s) t := by
  cases h : t.ttype <;> simp [subTxnFromStats, subVals, rowVals, h]

/-- View of a full-row upsert: the target day now shows the supplied
values, all other days are untouched. -/
theorem statsView_upsert_row (st : St) (s : DailyStatsRow)
    (hwf : StatsWF st) (hs : startOfDay s.date = s.date) (d : DateTime) :
    statsView (upsertDailyStats st (toInsertStats s)).1 d
      = if startOfDay d = s.date then rowVals s else statsView st d := by
  obtain ⟨hother, ⟨ex, hex, hexv, hexd⟩, _, _⟩ :=
    upsert_full_cases st s hwf hs
  by_cases hdd : startOfDay d = s.date
  · rw [if_pos hdd]
    have hcongr : getDailyStats (upsertDailyStats st (toInsertStats s)).1 d
        = getDailyStats (upsertDailyStats st (toInsertStats s)).1 s.date :=
      getDailyStats_day_congr _ (by rw [hdd, hs])
    simp only [statsView]
    rw [hcongr, hex]
    exact hexv
  · rw [if_neg hdd]
    simp only [statsView]
    rw [hother d hdd]

/-- Characterization of `updateStatsForTransaction` on a well-formed
table: the transaction's day gains the transaction's contribution, all
other days are untouched, well-formedness is preserved, the id counter
only grows, and the day's row exists afterwards. -/
theorem updStats_all (st : St) (t : Txn) (hwf : StatsWF st) :
    (∀ d, statsView (updateStatsForTransaction st t) d
      = if startOfDay d = startOfDay t.date
        then addVals (statsView st d) t
        else statsView st d) ∧
    StatsWF (updateStatsForTransaction st t) ∧
    st.nextId ≤ (updateStatsForTransaction st t).nextId ∧
    (∃ ex, getDailyStats (updateStatsForTransaction st t)
        (startOfDay t.date) = some ex ∧
      rowVals ex = addVals (statsView st (startOfDay t.date)) t ∧
      ex.date = startOfDay t.date) := by
  rcases hfind : getDailyStats st (startOfDay t.date) with _ | ex₀
  · -- no row for the day: the zero row is used as base
    have hdate : (addTxnToStats (zeroStatsRow (startOfDay t.date)) t).date
        = startOfDay t.date := by
      rw [date_addTxnToStats]
      rfl
    have hsd : startOfDay
        (addTxnToStats (zeroStatsRow (startOfDay t.date)) t).date
        = (addTxnToStats (zeroStatsRow (startOfDay t.date)) t).date := by
      rw [hdate]
      rfl
    have hbase : rowVals (addTxnToStats (zeroStatsRow (startOfDay t.date))
        t) = addVals (statsView st (startOfDay t.date)) t := by
      rw [rowVals_addTxnToStats]
      simp [statsView, hfind, rowVals, zeroStatsRow, zeroVals]
    obtain ⟨hother, ⟨ex, hex, hexv, hexd⟩, hwf', hmono⟩ :=
      upsert_full_cases st
        (addTxnToStats (zeroStatsRow (startOfDay t.date)) t) hwf hsd
    rw [hdate] at hex hexd hother
    have hview := fun d => statsView_upsert_row st
      (addTxnToStats (zeroStatsRow (startOfDay t.date)) t) hwf hsd d
    simp only [hbase, hdate] at hview
    refine ⟨?_, ?_, ?_, ⟨ex, ?_, ?_, hexd⟩⟩
    · intro d
      simp only [updateStatsForTransaction, hfind]
      rw [hview d]
      by_cases hdd : startOfDay d = startOfDay t.date
      · rw [if_pos hdd, if_pos hdd,
          statsView_day_congr st (e := startOfDay t.date) hdd]
      · rw [if_neg hdd, if_neg hdd]
    · simp only [updateStatsForTransaction, hfind]
      exact hwf'
    · simp only [updateStatsForTransaction, hfind]
      exact hmono
    · simp only [updateStatsForTransaction, hfind]
      exact hex
    · rw [hexv, hbase]
  · -- the day's row exists
    have hexdate : ex₀.date = startOfDay t.date := by
      have := List.find?_some (by simpa [getDailyStats] using hfind)
      simpa using this
    have hdate : (addTxnToStats ex₀ t).date = startOfDay t.date := by
      rw [date_addTxnToStats, hexdate]
    have hsd : startOfDay (addTxnToStats ex₀ t).date
        = (addTxnToStats ex₀ t).date := by
      rw [hdate]
      rfl
    have hbase : rowVals (addTxnToStats ex₀ t)
        = addVals (statsView st (startOfDay t.date)) t := by
      rw [rowVals_addTxnToStats]
      simp [statsView, hfind]
    obtain ⟨hother, ⟨ex, hex, hexv, hexd⟩, hwf', hmono⟩ :=
      upsert_full_cases st (addTxnToStats ex₀ t) hwf hsd
    rw [hdate] at hex hexd hother
    have hview := fun d => statsView_upsert_row st (addTxnToStats ex₀ t)
      hwf hsd d
    simp only [hbase, hdate] at hview
    refine ⟨?_, ?_, ?_, ⟨ex, ?_, ?_, hexd⟩⟩
    · intro d
      simp only [updateStatsForTransaction, hfind]
      rw [hview d]
      by_cases hdd : startOfDay d = startOfDay t.date
      · rw [if_pos hdd, if_pos hdd,
          statsView_day_congr st (e := startOfDay t.date) hdd]
      · rw [if_neg hdd, if_neg hdd]
    · simp only [updateStatsForTransaction, hfind]
      exact hwf'
    · simp only [updateStatsForTransaction, hfind]
      exact hmono
    · simp only [updateStatsForTransaction, hfind]
      exact hex
    · rw [hexv, hbase]

/-! ### Aggregate bookkeeping lemmas -/

/-- Sum over a double filter as a sum of guarded terms over the whole
list. -/
theorem sum_filter2_eq (p q : Txn → Bool) (g : Txn → Int) (ts : List Txn) :
    (((ts.filter p).filter q).map g).sum
      = (ts.map (fun t => if p t && q t then g t else 0)).sum := by
  induction ts with
  | nil => rfl
  | cons h t ih =>
    by_cases hp : p h = true <;> by_cases hq : q h = true <;>
      simp [List.filter_cons, hp, hq, ih, -Bool.and_eq_true,
        -List.filter_filter]

/-- Length of a double filter as a sum of indicators over the whole
list. -/
theorem length_filter2_eq (p q : Txn → Bool) (ts : List Txn) :
    ((((ts.filter p).filter q).length : Nat) : Int)
      = (ts.map (fun t => if p t && q t then (1 : Int) else 0)).sum := by
  induction ts with
  | nil => rfl
  | cons h t ih =>
    by_cases hp : p h = true <;> by_cases hq : q h = true <;>
      simp [List.filter_cons, hp, hq, ← ih, -Bool.and_eq_true,
        -List.filter_filter] <;>
      omega

/-- Sum over a single filter as a sum of guarded terms. -/
theorem sum_filter1_eq (p : Txn → Bool) (g : Txn → Int) (ts : List Txn) :
    ((ts.filter p).map g).sum
      = (ts.map (fun t => if p t then g t else 0)).sum := by
  induction ts with
  | nil => rfl
  | cons h t ih =>
    by_cases hp : p h = true <;> simp [List.filter_cons, hp, ih]

/-- The aggregate of a filtered transaction list, component by component,
as guarded sums over the unfiltered list. -/
theorem aggTxns_components (ts : List Txn) (p : Txn → Bool) :
    aggTxns (ts.filter p) =
      { totalRevenue := (ts.map (fun t => if p t then t.amount else 0)).sum,
        entriesRevenue := (ts.map (fun t =>
          if p t && (t.ttype == TransactionType.entry) then t.amount
          else 0)).sum,
        entriesCount := (ts.map (fun t =>
          if p t && (t.ttype == TransactionType.entry) then (1 : Int)
          else 0)).sum,
        subscriptionsRevenue := (ts.map (fun t =>
          if p t && (t.ttype == TransactionType.subscription) then t.amount
          else 0)).sum,
        subscriptionsCount := (ts.map (fun t =>
          if p t && (t.ttype == TransactionType.subscription) then (1 : Int)
          else 0)).sum,
        cafeRevenue := (ts.map (fun t =>
          if p t && (t.ttype == TransactionType.cafe) then t.amount
          else 0)).sum,
        cafeOrdersCount := (ts.map (fun t =>
          if p t && (t.ttype == TransactionType.cafe) then (1 : Int)
          else 0)).sum } := by
  unfold aggTxns
  rw [sum_filter1_eq, sum_filter2_eq, length_filter2_eq, sum_filter2_eq,
    length_filter2_eq, sum_filter2_eq, length_filter2_eq]

/-- Removing the (unique) transaction with id `i` from a list with
pairwise-distinct ids subtracts exactly its measure from any mapped
sum. -/
theorem sum_measure_filter_ne (i : Nat) (ts : List Txn)
    (hids : ts.Pairwise (fun a b => a.id ≠ b.id)) (t₀ : Txn)
    (ht : t₀ ∈ ts) (hid : t₀.id = i) (g : Txn → Int) :
    ((ts.filter (fun t => !(t.id == i))).map g).sum
      = (ts.map g).sum - g t₀ := by
  induction ts with
  | nil => simp at ht
  | cons h t ih =>
    obtain ⟨hh, htp⟩ := List.pairwise_cons.mp hids
    by_cases hhi : h.id = i
    · have ht0 : t₀ = h := by
        rcases List.mem_cons.mp ht with e | hmem
        · exact e
        · exact absurd (hhi.trans hid.symm) (hh t₀ hmem)
      have hrest : t.filter (fun x => !(x.id == i)) = t := by
        apply List.filter_eq_self.mpr
        intro a ha
        simp
        intro e
        exact (hh a ha) (hhi.trans e.symm)
      rw [List.filter_cons, if_neg (by simp [hhi]), hrest,
        List.map_cons, List.sum_cons, ht0]
      omega
    · have hmem : t₀ ∈ t := by
        rcases List.mem_cons.mp ht with e | hmem
        · rw [e] at hid
          exact absurd hid hhi
        · exact hmem
      rw [List.filter_cons, if_pos (by simp [hhi]), List.map_cons,
        List.sum_cons, ih htp hmem, List.map_cons, List.sum_cons]
      omega

/-- Replacing the (unique) transaction with id `i` swaps its measure for
the replacement's in any mapped sum. -/
theorem sum_measure_replace (i : Nat) (upd : Txn)
    (ts : List Txn) (hids : ts.Pairwise (fun a b => a.id ≠ b.id))
    (t₀ : Txn) (ht : t₀ ∈ ts) (hid : t₀.id = i) (g : Txn → Int) :
    ((ts.map (fun t => if t.id == i then upd else t)).map g).sum
      = (ts.map g).sum - g t₀ + g upd := by
  induction ts with
  | nil => simp at ht
  | cons h t ih =>
    obtain ⟨hh, htp⟩ := List.pairwise_cons.mp hids
    by_cases hhi : h.id = i
    · have ht0 : t₀ = h := by
        rcases List.mem_cons.mp ht with e | hmem
        · exact e
        · exact absurd (hhi.trans hid.symm) (hh t₀ hmem)
      have hrest : t.map (fun x => if x.id == i then upd else x) = t := by
        have hcong : ∀ a ∈ t, (if a.id == i then upd else a) = a := by
          intro a ha
          have : ¬ (a.id == i) = true := by
            simp
            intro e
            exact (hh a ha) (hhi.trans e.symm)
          simp [this]
        rw [List.map_congr_left hcong]
        simp
      rw [List.map_cons, if_pos (by simp [hhi]), hrest, List.map_cons,
        List.sum_cons, List.map_cons, List.sum_cons, ht0]
      omega
    · have hmem : t₀ ∈ t := by
        rcases List.mem_cons.mp ht with e | hmem
        · rw [e] at hid
          exact absurd hid hhi
        · exact hmem
      rw [List.map_cons, if_neg (by simp [hhi]), List.map_cons,
        List.sum_cons, ih htp hmem, List.map_cons, List.sum_cons]
      omega

/-- Appending one transaction: the aggregate for day `d` gains the new
transaction's contribution exactly when it is dated on `d`. -/
theorem aggTxns_append_day (ts : List Txn) (x : Txn) (d : DateTime) :
    aggTxns ((ts ++ [x]).filter (onDay d))
      = if onDay d x = true
        then addVals (aggTxns (ts.filter (onDay d))) x
        else aggTxns (ts.filter (onDay d)) := by
  rw [aggTxns_components, aggTxns_components]
  by_cases hday : onDay d x = true
  · rw [if_pos hday]
    rcases htt : x.ttype <;>
      simp [addVals, htt, hday, List.map_append, List.sum_append,
        -Bool.and_eq_true]
  · rw [if_neg hday]
    have hday' : onDay d x = false := by
      cases hx : onDay d x
      · rfl
      · exact absurd hx hday
    simp [hday', List.map_append, List.sum_append, -Bool.and_eq_true]

/-- Deleting the (unique) transaction with id `i`: the aggregate for day
`d` loses the deleted transaction's exact contribution when it was dated
on `d`, and is untouched otherwise. -/
theorem aggTxns_delete (i : Nat) (ts : List Txn)
    (hids : ts.Pairwise (fun a b => a.id ≠ b.id)) (t₀ : Txn)
    (ht : t₀ ∈ ts) (hid : t₀.id = i) (d : DateTime) :
    aggTxns ((ts.filter (fun t => !(t.id == i))).filter (onDay d))
      = if onDay d t₀ = true
        then subValsExact (aggTxns (ts.filter (onDay d))) t₀
        else aggTxns (ts.filter (onDay d)) := by
  rw [aggTxns_components, aggTxns_components]
  simp only [sum_measure_filter_ne i ts hids t₀ ht hid]
  by_cases hday : onDay d t₀ = true
  · rw [if_pos hday]
    rcases htt : t₀.ttype <;>
      simp [subValsExact, htt, hday, -Bool.and_eq_true]
  · rw [if_neg hday]
    have hday' : onDay d t₀ = false := by
      cases hx : onDay d t₀
      · rfl
      · exact absurd hx hday
    simp [hday', -Bool.and_eq_true]

/-- Replacing the (unique) transaction with id `i` by `upd`: the
aggregate for day `d` loses the original's exact contribution when it
was on `d` and gains the replacement's when the replacement is on `d`. -/
theorem aggTxns_replace (i : Nat) (upd : Txn) (ts : List Txn)
    (hids : ts.Pairwise (fun a b => a.id ≠ b.id)) (t₀ : Txn)
    (ht : t₀ ∈ ts) (hid : t₀.id = i) (d : DateTime) :
    aggTxns ((ts.map (fun t => if t.id == i then upd else t)).filter
        (onDay d))
      = (if onDay d upd = true
          then addVals
            (if onDay d t₀ = true
              then subValsExact (aggTxns (ts.filter (onDay d))) t₀
              else aggTxns (ts.filter (onDay d))) upd
          else
            (if onDay d t₀ = true
              then subValsExact (aggTxns (ts.filter (onDay d))) t₀
              else aggTxns (ts.filter (onDay d)))) := by
  rw [aggTxns_components, aggTxns_components]
  simp only [sum_measure_replace i upd ts hids t₀ ht hid]
  by_cases hday0 : onDay d t₀ = true <;>
    by_cases hday1 : onDay d upd = true
  · rw [if_pos hday0, if_pos hday1]
    rcases htt0 : t₀.ttype <;> rcases htt1 : upd.ttype <;>
      simp [subValsExact, addVals, htt0, htt1, hday0, hday1,
        -Bool.and_eq_true] <;>
      omega
  · rw [if_pos hday0, if_neg hday1]
    have hday1' : onDay d upd = false := by
      cases hx : onDay d upd
      · rfl
      · exact absurd hx hday1
    rcases htt0 : t₀.ttype <;>
      simp [subValsExact, htt0, hday0, hday1', -Bool.and_eq_true] <;>
      omega
  · rw [if_neg hday0, if_pos hday1]
    have hday0' : onDay d t₀ = false := by
      cases hx : onDay d t₀
      · rfl
      · exact absurd hx hday0
    rcases htt1 : upd.ttype <;>
      simp [addVals, htt1, hday0', hday1, -Bool.and_eq_true] <;>
      omega
  · rw [if_neg hday0, if_neg hday1]
    have hday0' : onDay d t₀ = false := by
      cases hx : onDay d t₀
      · rfl
      · exact absurd hx hday0
    have hday1' : onDay d upd = false := by
      cases hx : onDay d upd
      · rfl
      · exact absurd hx hday1
    simp [hday0', hday1', -Bool.and_eq_true]

/-- On an aggregate that actually contains the transaction's day entry,
the clamped subtraction agrees with the exact one. -/
theorem subVals_agg_of_mem (ts : List Txn) (d : DateTime) (t₀ : Txn)
    (ht : t₀ ∈ ts) (hday : onDay d t₀ = true) :
    subVals (aggTxns (ts.filter (onDay d))) t₀
      = subValsExact (aggTxns (ts.filter (onDay d))) t₀ := by
  have hmem : t₀ ∈ ts.filter (onDay d) :=
    List.mem_filter.mpr ⟨ht, hday⟩
  rcases htt : t₀.ttype
  · simp [subVals, subValsExact, aggTxns, htt, -List.filter_filter]
    have hmem2 : t₀ ∈ (ts.filter (onDay d)).filter
        (fun t => t.ttype == TransactionType.entry) :=
      List.mem_filter.mpr ⟨hmem, by simp [htt]⟩
    have hpos := List.length_pos.mpr (List.ne_nil_of_mem hmem2)
    omega
  · simp [subVals, subValsExact, aggTxns, htt, -List.filter_filter]
    have hmem2 : t₀ ∈ (ts.filter (onDay d)).filter
        (fun t => t.ttype == TransactionType.subscription) :=
      List.mem_filter.mpr ⟨hmem, by simp [htt]⟩
    have hpos := List.length_pos.mpr (List.ne_nil_of_mem hmem2)
    omega
  · simp [subVals, subValsExact, aggTxns, htt, -List.filter_filter]
    have hmem2 : t₀ ∈ (ts.filter (onDay d)).filter
        (fun t => t.ttype == TransactionType.cafe) :=
      List.mem_filter.mpr ⟨hmem, by simp [htt]⟩
    have hpos := List.length_pos.mpr (List.ne_nil_of_mem hmem2)
    omega

/-- Adding a transaction and then subtracting it exactly restores the
aggregate when the count is non-negative (clamped form). -/
theorem subVals_addVals_cancel (v : StatsVals) (t : Txn)
    (he : 0 ≤ v.entriesCount) (hsu : 0 ≤ v.subscriptionsCount)
    (hc : 0 ≤ v.cafeOrdersCount) :
    subVals (addVals v t) t = v := by
  obtain ⟨v1, v2, v3, v4, v5, v6, v7⟩ := v
  rcases htt : t.ttype <;>
    simp [subVals, addVals, htt] at he hsu hc ⊢ <;>
    omega

/-- Subtracting exactly and adding back a transaction with the same type
and amount restores the aggregate. -/
theorem addVals_subValsExact_cancel (v : StatsVals) (a b : Txn)
    (hty : b.ttype = a.ttype) (ham : b.amount = a.amount) :
    addVals (subValsExact v a) b = v := by
  obtain ⟨v1, v2, v3, v4, v5, v6, v7⟩ := v
  rcases htt : a.ttype <;>
    simp [addVals, subValsExact, htt, hty, ham] <;>
    omega

/-- States with the same stats table have the same view. -/
theorem statsView_congr_stats {st st' : St} (h : st'.stats = st.stats)
    (d : DateTime) : statsView st' d = statsView st d := by
  simp [statsView, getDailyStats, h]

/-- The total revenue of the reference aggregate is the sum of the three
per-category revenues. -/
theorem aggTxns_total_eq (ts : List Txn) :
    (aggTxns ts).totalRevenue
      = (aggTxns ts).entriesRevenue + (aggTxns ts).subscriptionsRevenue
        + (aggTxns ts).cafeRevenue := by
  induction ts with
  | nil => simp [aggTxns]
  | cons h t ih =>
    rcases htt : h.ttype <;>
      simp [aggTxns, List.filter_cons, htt] at ih ⊢ <;>
      omega

/-! ### Preservation of the ledger invariant -/

/-- Shape of `createTransaction`: a fresh-id row is appended and the
day's stats are updated. -/
theorem createTransaction_state (st : St) (ins : InsertTransaction)
    (now : DateTime) :
    (createTransaction st ins now).2.id = st.nextId ∧
    (createTransaction st ins now).1
      = updateStatsForTransaction
          { st with
            transactions := st.transactions
              ++ [(createTransaction st ins now).2],
            nextId := st.nextId + 1 }
          (createTransaction st ins now).2 :=
  ⟨rfl, rfl⟩

/-- `createTransaction` preserves the ledger invariant. -/
theorem ledgerInv_create (st : St) (ins : InsertTransaction)
    (now : DateTime) (h : LedgerInv st) :
    LedgerInv (createTransaction st ins now).1 := by
  obtain ⟨⟨htb, htp⟩, hswf, hinv⟩ := h
  obtain ⟨hid, h1⟩ := createTransaction_state st ins now
  rw [h1]
  have hswf1 : StatsWF { st with
      transactions := st.transactions ++ [(createTransaction st ins now).2],
      nextId := st.nextId + 1 } := by
    obtain ⟨b, i, dts, f⟩ := hswf
    exact ⟨fun r hr => Nat.lt_succ_of_lt (b r hr), i, dts, f⟩
  obtain ⟨hview, hwf', hmono, _⟩ := updStats_all _ _ hswf1
  refine ⟨⟨?_, ?_⟩, hwf', ?_⟩
  · intro t ht
    rw [updateStats_transactions] at ht
    dsimp only at ht hmono ⊢
    rcases List.mem_append.mp ht with ht | ht
    · have := htb t ht
      omega
    · simp at ht
      rw [ht, hid]
      omega
  · rw [updateStats_transactions]
    dsimp only
    rw [List.pairwise_append]
    refine ⟨htp, by simp, ?_⟩
    intro a ha b hb
    simp at hb
    rw [hb, hid]
    have := htb a ha
    omega
  · intro d
    rw [hview d]
    simp only [txnsOnDay, updateStats_transactions]
    rw [aggTxns_append_day]
    have hv1 : statsView { st with
        transactions := st.transactions
          ++ [(createTransaction st ins now).2],
        nextId := st.nextId + 1 } d = statsView st d :=
      statsView_congr_stats rfl d
    rw [hv1]
    have hagg := hinv d
    simp only [txnsOnDay] at hagg
    rw [hagg]
    by_cases hdd : startOfDay d
        = startOfDay (createTransaction st ins now).2.date
    · have hday : onDay d (createTransaction st ins now).2 = true := by
        simp [onDay, hdd]
      rw [if_pos hdd, if_pos hday]
    · have hday : onDay d (createTransaction st ins now).2 = false := by
        simp [onDay]
        exact fun e => hdd e.symm
      rw [if_neg hdd, if_neg (by simp [hday])]

/-- Under the stats invariant, the day of a stored transaction always has
a stats row (its per-category count would otherwise be positive while
the view reads zero). -/
theorem getDailyStats_of_mem (st : St) (t₀ : Txn)
    (hinv : StatsInvariant st) (hmem : t₀ ∈ st.transactions) :
    getDailyStats st (startOfDay t₀.date) ≠ none := by
  intro hg
  have hgd : getDailyStats st t₀.date = none := by
    rw [getDailyStats_day_congr st (d := t₀.date)
      (e := startOfDay t₀.date) rfl]
    exact hg
  have hcontra := hinv t₀.date
  have hview0 : statsView st t₀.date = zeroVals := by
    simp [statsView, hgd]
  rw [hview0] at hcontra
  have hday : onDay t₀.date t₀ = true := by simp [onDay]
  have hmem1 : t₀ ∈ txnsOnDay st t₀.date :=
    List.mem_filter.mpr ⟨hmem, hday⟩
  rcases htt : t₀.ttype
  · have hmem2 : t₀ ∈ (txnsOnDay st t₀.date).filter
        (fun t => t.ttype == TransactionType.entry) :=
      List.mem_filter.mpr ⟨hmem1, by simp [htt]⟩
    have hpos := List.length_pos.mpr (List.ne_nil_of_mem hmem2)
    have hc : zeroVals.entriesCount
        = (aggTxns (txnsOnDay st t₀.date)).entriesCount := by
      rw [hcontra]
    simp [zeroVals, aggTxns, txnsOnDay, -List.filter_filter] at hc hpos
    omega
  · have hmem2 : t₀ ∈ (txnsOnDay st t₀.date).filter
        (fun t => t.ttype == TransactionType.subscription) :=
      List.mem_filter.mpr ⟨hmem1, by simp [htt]⟩
    have hpos := List.length_pos.mpr (List.ne_nil_of_mem hmem2)
    have hc : zeroVals.subscriptionsCount
        = (aggTxns (txnsOnDay st t₀.date)).subscriptionsCount := by
      rw [hcontra]
    simp [zeroVals, aggTxns, txnsOnDay, -List.filter_filter] at hc hpos
    omega
  · have hmem2 : t₀ ∈ (txnsOnDay st t₀.date).filter
        (fun t => t.ttype == TransactionType.cafe) :=
      List.mem_filter.mpr ⟨hmem1, by simp [htt]⟩
    have hpos := List.length_pos.mpr (List.ne_nil_of_mem hmem2)
    have hc : zeroVals.cafeOrdersCount
        = (aggTxns (txnsOnDay st t₀.date)).cafeOrdersCount := by
      rw [hcontra]
    simp [zeroVals, aggTxns, txnsOnDay, -List.filter_filter] at hc hpos
    omega

/-- `deleteTransaction` preserves the ledger invariant. -/
theorem ledgerInv_delete (st : St) (id : Nat) (h : LedgerInv st) :
    LedgerInv (deleteTransaction st id).1 := by
  obtain ⟨⟨htb, htp⟩, hswf, hinv⟩ := h
  rcases hfindt : getTransaction st id with _ | t₀
  · simp only [deleteTransaction, hfindt]
    exact ⟨⟨htb, htp⟩, hswf, hinv⟩
  · have ht0mem : t₀ ∈ st.transactions := List.mem_of_find?_eq_some hfindt
    have ht0id : t₀.id = id := by
      have := List.find?_some (by simpa [getTransaction] using hfindt)
      simpa using this
    simp only [deleteTransaction, hfindt]
    rcases hg : getDailyStats st (startOfDay t₀.date) with _ | ex₀
    · exact absurd hg (getDailyStats_of_mem st t₀ hinv ht0mem)
    · have hg1 : getDailyStats
          { st with transactions :=
            st.transactions.filter (fun t => !(t.id == id)) }
          (startOfDay t₀.date) = some ex₀ := hg
      simp only [hg1]
      have hexdate : ex₀.date = startOfDay t₀.date := by
        have := List.find?_some (by simpa [getDailyStats] using hg)
        simpa using this
      have hswf1 : StatsWF
          { st with transactions :=
            st.transactions.filter (fun t => !(t.id == id)) } := hswf
      have hsd : startOfDay (subTxnFromStats ex₀ t₀).date
          = (subTxnFromStats ex₀ t₀).date := by
        rw [date_subTxnFromStats, hexdate]
        rfl
      obtain ⟨hother, ⟨ex, hex, hexv, hexd⟩, hwf', hmono⟩ :=
        upsert_full_cases _ (subTxnFromStats ex₀ t₀) hswf1 hsd
      have hview := fun d => statsView_upsert_row _
        (subTxnFromStats ex₀ t₀) hswf1 hsd d
      refine ⟨⟨?_, ?_⟩, hwf', ?_⟩
      · intro t ht
        rw [upsert_transactions] at ht
        have ht' : t ∈ st.transactions :=
          List.mem_of_mem_filter ht
        have := htb t ht'
        have hm2 := hmono
        dsimp only at hm2
        omega
      · rw [upsert_transactions]
        exact htp.sublist (List.filter_sublist _)
      · intro d
        rw [hview d]
        have htx : (upsertDailyStats
            { st with transactions :=
              st.transactions.filter (fun t => !(t.id == id)) }
            (toInsertStats (subTxnFromStats ex₀ t₀))).1.transactions
            = st.transactions.filter (fun t => !(t.id == id)) :=
          upsert_transactions _ _
        simp only [txnsOnDay, htx]
        rw [aggTxns_delete id st.transactions htp t₀ ht0mem ht0id d]
        rw [date_subTxnFromStats, hexdate]
        have hviewst : statsView st (startOfDay t₀.date) = rowVals ex₀ := by
          simp [statsView, hg]
        have haggst := hinv d
        simp only [txnsOnDay] at haggst
        by_cases hdd : startOfDay d = startOfDay t₀.date
        · have hday : onDay d t₀ = true := by
            simp [onDay, hdd]
          rw [if_pos hdd, if_pos hday, rowVals_subTxnFromStats]
          have hv : rowVals ex₀ = statsView st d := by
            rw [← hviewst]
            exact (statsView_day_congr st (by rw [hdd, startOfDay_idem])).symm
          rw [hv, haggst]
          exact subVals_agg_of_mem st.transactions d t₀ ht0mem hday
        · have hday : onDay d t₀ = false := by
            simp [onDay]
            exact fun e => hdd e.symm
          rw [if_neg hdd, if_neg (by simp [hday])]
          have hv1 : statsView
              { st with transactions :=
                st.transactions.filter (fun t => !(t.id == id)) } d
              = statsView st d := statsView_congr_stats rfl d
          rw [hv1, haggst]

/-- Replacing the row with id `id` by an update carrying that same id
leaves every row's id unchanged. -/
theorem replace_id_eq (id : Nat) (upd a t₀ : Txn) (hid : upd.id = t₀.id)
    (ht0id : t₀.id = id) :
    (if a.id == id then upd else a).id = a.id := by
  by_cases hcase : a.id = id
  · simp [hcase, hid, ht0id]
  · simp [hcase]

/-- Replacing a row by an update with the same id keeps the id bound and
the pairwise distinctness of the transaction ids. -/
theorem txnIdsOk_map_replace (st : St) (id : Nat) (upd t₀ : Txn)
    (hid : upd.id = t₀.id) (ht0id : t₀.id = id)
    (htb : ∀ t ∈ st.transactions, t.id < st.nextId)
    (htp : st.transactions.Pairwise (fun a b => a.id ≠ b.id)) :
    (∀ t ∈ st.transactions.map (fun t => if t.id == id then upd else t),
        t.id < st.nextId) ∧
    (st.transactions.map (fun t => if t.id == id then upd else t)).Pairwise
      (fun a b => a.id ≠ b.id) := by
  constructor
  · intro t ht
    rcases List.mem_map.mp ht with ⟨a, ha, rfl⟩
    rw [replace_id_eq id upd a t₀ hid ht0id]
    exact htb a ha
  · rw [List.pairwise_map]
    refine htp.imp_of_mem ?_
    intro a b ha hb hab
    rw [replace_id_eq id upd a t₀ hid ht0id,
      replace_id_eq id upd b t₀ hid ht0id]
    exact hab

/-- The no-stats-change branch of `updateTransaction`: replacing a stored
transaction by one with the same id, type, amount and date preserves the
ledger invariant without touching the stats table. -/
theorem ledgerInv_replace_same (st : St) (id : Nat) (t₀ upd : Txn)
    (ht0mem : t₀ ∈ st.transactions) (ht0id : t₀.id = id)
    (hid : upd.id = t₀.id) (hty : upd.ttype = t₀.ttype)
    (ham : upd.amount = t₀.amount) (hdt : upd.date = t₀.date)
    (h : LedgerInv st) :
    LedgerInv
      { st with transactions :=
        st.transactions.map (fun t => if t.id == id then upd else t) } := by
  obtain ⟨⟨htb, htp⟩, hswf, hinv⟩ := h
  obtain ⟨hb, hp⟩ := txnIdsOk_map_replace st id upd t₀ hid ht0id htb htp
  refine ⟨⟨hb, hp⟩, hswf, ?_⟩
  intro d
  have hv : statsView
      { st with transactions :=
        st.transactions.map (fun t => if t.id == id then upd else t) } d
      = statsView st d := statsView_congr_stats rfl d
  rw [hv]
  simp only [txnsOnDay]
  rw [aggTxns_replace id upd st.transactions htp t₀ ht0mem ht0id d]
  have hood : onDay d upd = onDay d t₀ := by
    simp [onDay, hdt]
  rw [hood]
  have haggst := hinv d
  simp only [txnsOnDay] at haggst
  by_cases hday : onDay d t₀ = true
  · rw [if_pos hday, if_pos hday,
      addVals_subValsExact_cancel _ t₀ upd hty ham]
    exact haggst
  · rw [if_neg hday, if_neg hday]
    exact haggst

/-- The stats-rebalancing branch of `updateTransaction` (amount, date or
type patched): subtract the original's contribution from its day and add
the updated row's contribution to its (possibly new) day.  Preserves the
ledger invariant. -/
theorem ledgerInv_replace_rebalance (st : St) (id : Nat) (t₀ upd : Txn)
    (ht0mem : t₀ ∈ st.transactions) (ht0id : t₀.id = id)
    (hid : upd.id = t₀.id) (h : LedgerInv st) :
    LedgerInv
      (updateStatsForTransaction
        (match
          getDailyStats
            { st with transactions :=
              st.transactions.map (fun t => if t.id == id then upd else t) }
            (startOfDay t₀.date) with
        | some originalStats =>
          (upsertDailyStats
            { st with transactions :=
              st.transactions.map (fun t => if t.id == id then upd else t) }
            (toInsertStats (subTxnFromStats originalStats t₀))).1
        | none =>
          { st with transactions :=
            st.transactions.map (fun t => if t.id == id then upd else t) })
        upd) := by
  obtain ⟨⟨htb, htp⟩, hswf, hinv⟩ := h
  obtain ⟨hb1, hp1⟩ := txnIdsOk_map_replace st id upd t₀ hid ht0id htb htp
  rcases hg : getDailyStats st (startOfDay t₀.date) with _ | ex₀
  · exact absurd hg (getDailyStats_of_mem st t₀ hinv ht0mem)
  · have hg1 : getDailyStats
        { st with transactions :=
          st.transactions.map (fun t => if t.id == id then upd else t) }
        (startOfDay t₀.date) = some ex₀ := hg
    simp only [hg1]
    have hexdate : ex₀.date = startOfDay t₀.date := by
      have := List.find?_some (by simpa [getDailyStats] using hg)
      simpa using this
    have hswf1 : StatsWF
        { st with transactions :=
          st.transactions.map (fun t => if t.id == id then upd else t) } :=
      hswf
    have hsd : startOfDay (subTxnFromStats ex₀ t₀).date
        = (subTxnFromStats ex₀ t₀).date := by
      rw [date_subTxnFromStats, hexdate]
      rfl
    obtain ⟨hother, _, hwf2, hmono2⟩ :=
      upsert_full_cases _ (subTxnFromStats ex₀ t₀) hswf1 hsd
    have hview2 := fun d => statsView_upsert_row _
      (subTxnFromStats ex₀ t₀) hswf1 hsd d
    obtain ⟨hview3, hwf3, hmono3, _⟩ := updStats_all _ upd hwf2
    have hm2 := hmono2
    dsimp only at hm2
    have hm3 := hmono3
    have htx2 : (upsertDailyStats
        { st with transactions :=
          st.transactions.map (fun t => if t.id == id then upd else t) }
        (toInsertStats (subTxnFromStats ex₀ t₀))).1.transactions
        = st.transactions.map (fun t => if t.id == id then upd else t) :=
      upsert_transactions _ _
    refine ⟨⟨?_, ?_⟩, hwf3, ?_⟩
    · intro t ht
      rw [updateStats_transactions, htx2] at ht
      have := hb1 t ht
      omega
    · rw [updateStats_transactions, htx2]
      exact hp1
    · intro d
      rw [hview3 d]
      simp only [txnsOnDay, updateStats_transactions, htx2]
      rw [aggTxns_replace id upd st.transactions htp t₀ ht0mem ht0id d]
      have hex0 : rowVals ex₀ = statsView st (startOfDay t₀.date) := by
        simp [statsView, hg]
      have hv2 : statsView (upsertDailyStats
          { st with transactions :=
            st.transactions.map (fun t => if t.id == id then upd else t) }
          (toInsertStats (subTxnFromStats ex₀ t₀))).1 d
          = if startOfDay d = startOfDay t₀.date
            then subVals (statsView st d) t₀
            else statsView st d := by
        rw [hview2 d, date_subTxnFromStats, hexdate,
          rowVals_subTxnFromStats, hex0]
        by_cases h2 : startOfDay d = startOfDay t₀.date
        · rw [if_pos h2, if_pos h2, statsView_day_congr st
            (d := startOfDay t₀.date) (e := d)
            (by rw [startOfDay_idem]; exact h2.symm)]
        · rw [if_neg h2, if_neg h2]
          exact statsView_congr_stats rfl d
      rw [hv2]
      have haggst := hinv d
      simp only [txnsOnDay] at haggst
      by_cases h1 : startOfDay d = startOfDay upd.date <;>
        by_cases h2 : startOfDay d = startOfDay t₀.date
      · have hdu : onDay d upd = true := by
          simp [onDay, h1]
        have hdt0 : onDay d t₀ = true := by
          simp [onDay, h2]
        rw [if_pos h1, if_pos h2, if_pos hdu, if_pos hdt0, haggst,
          subVals_agg_of_mem st.transactions d t₀ ht0mem hdt0]
      · have hdu : onDay d upd = true := by
          simp [onDay, h1]
        have hdt0 : onDay d t₀ = false := by
          simp [onDay]
          exact fun e => h2 e.symm
        rw [if_pos h1, if_neg h2, if_pos hdu, if_neg (by simp [hdt0]),
          haggst]
      · have hdu : onDay d upd = false := by
          simp [onDay]
          exact fun e => h1 e.symm
        have hdt0 : onDay d t₀ = true := by
          simp [onDay, h2]
        rw [if_neg h1, if_pos h2, if_neg (by simp [hdu]), if_pos hdt0,
          haggst, subVals_agg_of_mem st.transactions d t₀ ht0mem hdt0]
      · have hdu : onDay d upd = false := by
          simp [onDay]
          exact fun e => h1 e.symm
        have hdt0 : onDay d t₀ = false := by
          simp [onDay]
          exact fun e => h2 e.symm
        rw [if_neg h1, if_neg h2, if_neg (by simp [hdu]),
          if_neg (by simp [hdt0])]
        exact haggst

/-- `updateTransaction` preserves the ledger invariant. -/
theorem ledgerInv_update (st : St) (id : Nat) (data : TxnPatch)
    (now : DateTime) (h : LedgerInv st) :
    LedgerInv (updateTransaction st id data now).1 := by
  rcases hfindt : getTransaction st id with _ | t₀
  · simpa [updateTransaction, hfindt] using h
  · have ht0mem : t₀ ∈ st.transactions := List.mem_of_find?_eq_some hfindt
    have ht0id : t₀.id = id := by
      have := List.find?_some (by simpa [getTransaction] using hfindt)
      simpa using this
    simp only [updateTransaction, hfindt]
    split <;> split
    · dsimp only
      exact ledgerInv_replace_rebalance st id t₀ _ ht0mem ht0id rfl h
    · rename_i hc
      simp only [Bool.or_eq_true, not_or, Bool.not_eq_true,
        Option.not_isSome, Option.isNone_iff_eq_none] at hc
      obtain ⟨⟨ham, hdt⟩, hty⟩ := hc
      dsimp only
      refine ledgerInv_replace_same st id t₀ _ ht0mem ht0id rfl ?_ ?_ ?_ h
      · simp [applyPatch, hty]
      · simp [applyPatch, ham]
      · simp [applyPatch, hdt]
    · dsimp only
      exact ledgerInv_replace_rebalance st id t₀ _ ht0mem ht0id rfl h
    · rename_i hc
      simp only [Bool.or_eq_true, not_or, Bool.not_eq_true,
        Option.not_isSome, Option.isNone_iff_eq_none] at hc
      obtain ⟨⟨ham, hdt⟩, hty⟩ := hc
      dsimp only
      refine ledgerInv_replace_same st id t₀ _ ht0mem ht0id rfl ?_ ?_ ?_ h
      · simp [applyPatch, hty]
      · simp [applyPatch, ham]
      · simp [applyPatch, hdt]

/-- The empty store satisfies the ledger invariant. -/
theorem ledgerInv_empty : LedgerInv emptySt := by
  refine ⟨⟨?_, ?_⟩, ⟨?_, ?_, ?_, ?_⟩, ?_⟩
  · intro t ht
    simp [emptySt] at ht
  · simp [emptySt]
  · intro r hr
    simp [emptySt] at hr
  · simp [emptySt]
  · simp [emptySt]
  · intro r hr
    simp [emptySt] at hr
  · intro d
    rfl

/-- Every single ledger operation preserves the ledger invariant. -/
theorem ledgerInv_applyTxnOp (st : St) (op : TxnOp) (h : LedgerInv st) :
    LedgerInv (applyTxnOp st op) := by
  cases op with
  | create ins now => exact ledgerInv_create st ins now h
  | update id patch now => exact ledgerInv_update st id patch now h
  | delete id => exact ledgerInv_delete st id h

/-- Any sequence of ledger operations preserves the ledger invariant. -/
theorem ledgerInv_runTxnOps (st : St) (ops : List TxnOp)
    (h : LedgerInv st) : LedgerInv (runTxnOps st ops) := by
  induction ops generalizing st with
  | nil => exact h
  | cons op rest ih => exact ih _ (ledgerInv_applyTxnOp st op h)

/-- C1: for every sequence of transaction creates, updates and deletes
(starting from the empty store), the observable DailyStats values for each
day `d` equal the reference aggregate of the non-deleted transactions
dated on `d` — each per-category revenue is the sum of amounts of
transactions of that type on the day, each per-category count is the
number of such transactions — and the stored totalRevenue equals the sum
of the three per-category revenues. -/
theorem dailyStats_is_materialized_aggregate (ops : List TxnOp)
    (d : DateTime) :
    statsView (runTxnOps emptySt ops) d
      = aggTxns (txnsOnDay (runTxnOps emptySt ops) d) ∧
    (statsView (runTxnOps emptySt ops) d).totalRevenue
      = (statsView (runTxnOps emptySt ops) d).entriesRevenue
        + (statsView (runTxnOps emptySt ops) d).subscriptionsRevenue
        + (statsView (runTxnOps emptySt ops) d).cafeRevenue := by
  have h := ledgerInv_runTxnOps emptySt ops ledgerInv_empty
  have h1 := h.2.2 d
  refine ⟨h1, ?_⟩
  rw [h1]
  exact aggTxns_total_eq _

/-- The reference aggregate's per-category counts are non-negative (they
are list lengths). -/
theorem aggTxns_counts_nonneg (ts : List Txn) :
    0 ≤ (aggTxns ts).entriesCount ∧ 0 ≤ (aggTxns ts).subscriptionsCount ∧
      0 ≤ (aggTxns ts).cafeOrdersCount := by
  refine ⟨?_, ?_, ?_⟩ <;> simp [aggTxns]

/-- Searching a fresh id that was appended at the end finds the appended
row (every earlier id is strictly smaller). -/
theorem find?_append_fresh (ts : List Txn) (n : Nat) (x : Txn)
    (hx : x.id = n) (hb : ∀ t ∈ ts, t.id < n) :
    (ts ++ [x]).find? (fun t => t.id == n) = some x := by
  rw [List.find?_append]
  have h1 : ts.find? (fun t => t.id == n) = none := by
    rw [List.find?_eq_none]
    intro t ht
    simp
    exact Nat.ne_of_lt (hb t ht)
  rw [h1]
  simp [hx]

/-- Filtering out a freshly appended id removes exactly the appended
row. -/
theorem filter_append_fresh (ts : List Txn) (n : Nat) (x : Txn)
    (hx : x.id = n) (hb : ∀ t ∈ ts, t.id < n) :
    (ts ++ [x]).filter (fun t => !(t.id == n)) = ts := by
  rw [List.filter_append]
  have h1 : ts.filter (fun t => !(t.id == n)) = ts := by
    rw [List.filter_eq_self]
    intro t ht
    simp
    exact Nat.ne_of_lt (hb t ht)
  have h2 : [x].filter (fun t => !(t.id == n)) = [] := by
    simp [List.filter, hx]
  rw [h1, h2, List.append_nil]

/-- View change of a successful `deleteTransaction` when the day's row is
present: the deleted transaction's day shows the clamped subtraction of
its contribution, all other days are untouched. -/
theorem deleteTransaction_statsView (st : St) (id : Nat) (t₀ : Txn)
    (hswf : StatsWF st) (hfind : getTransaction st id = some t₀)
    (ex₀ : DailyStatsRow)
    (hg : getDailyStats st (startOfDay t₀.date) = some ex₀) (d : DateTime) :
    statsView (deleteTransaction st id).1 d
      = if startOfDay d = startOfDay t₀.date
        then subVals (statsView st d) t₀
        else statsView st d := by
  have hexdate : ex₀.date = startOfDay t₀.date := by
    have := List.find?_some (by simpa [getDailyStats] using hg)
    simpa using this
  simp only [deleteTransaction, hfind]
  have hg1 : getDailyStats
      { st with transactions :=
        st.transactions.filter (fun t => !(t.id == id)) }
      (startOfDay t₀.date) = some ex₀ := hg
  simp only [hg1]
  have hswf1 : StatsWF
      { st with transactions :=
        st.transactions.filter (fun t => !(t.id == id)) } := hswf
  have hsd : startOfDay (subTxnFromStats ex₀ t₀).date
      = (subTxnFromStats ex₀ t₀).date := by
    rw [date_subTxnFromStats, hexdate]
    rfl
  have hview2 := statsView_upsert_row _ (subTxnFromStats ex₀ t₀) hswf1 hsd d
  rw [hview2, date_subTxnFromStats, hexdate, rowVals_subTxnFromStats]
  have hex0 : rowVals ex₀ = statsView st (startOfDay t₀.date) := by
    simp [statsView, hg]
  rw [hex0]
  by_cases h2 : startOfDay d = startOfDay t₀.date
  · rw [if_pos h2, if_pos h2, statsView_day_congr st
      (d := startOfDay t₀.date) (e := d)
      (by rw [startOfDay_idem]; exact h2.symm)]
  · rw [if_neg h2, if_neg h2]
    exact statsView_congr_stats rfl d

/-- A successful `deleteTransaction` removes exactly the targeted row and
reports success. -/
theorem deleteTransaction_transactions (st : St) (id : Nat) (t₀ : Txn)
    (hfind : getTransaction st id = some t₀) :
    (deleteTransaction st id).1.transactions
      = st.transactions.filter (fun t => !(t.id == id)) ∧
    (deleteTransaction st id).2 = true := by
  simp only [deleteTransaction, hfind]
  constructor
  · split
    · exact upsert_transactions _ _
    · rfl
  · trivial

/-- Creation payload: an entry of 10 dated 2024-01-10. -/
def insEntry10 : InsertTransaction :=
  { ttype := .entry, amount := 10, date := some dJan10,
    paymentMethod := "cash" }

/-- C7: on any state satisfying the ledger invariant, creating a
transaction and then deleting it restores every day's observable
DailyStats and the transaction table (round-trip); a successful deletion
replaces the deleted transaction's day by the clamped subtraction of its
contribution (revenues subtracted without clamping, counts clamped at 0)
leaving all other days untouched; and deleting an absent id leaves the
state unchanged and reports failure (`false`, which the route maps to
404 Not Found). -/
theorem create_delete_roundtrip (st : St) (ins : InsertTransaction)
    (now : DateTime) (h : LedgerInv st) :
    (∀ d, statsView (deleteTransaction (createTransaction st ins now).1
        (createTransaction st ins now).2.id).1 d = statsView st d) ∧
    (deleteTransaction (createTransaction st ins now).1
        (createTransaction st ins now).2.id).1.transactions
      = st.transactions ∧
    (∀ i t₀, getTransaction st i = some t₀ →
      ∀ d, statsView (deleteTransaction st i).1 d
        = if startOfDay d = startOfDay t₀.date
          then subVals (statsView st d) t₀
          else statsView st d) ∧
    (∀ i, getTransaction st i = none →
      deleteTransaction st i = (st, false)) := by
  obtain ⟨⟨htb, htp⟩, hswf, hinv⟩ := h
  obtain ⟨hid, hsteq⟩ := createTransaction_state st ins now
  have hswfMid : StatsWF { st with
      transactions := st.transactions ++ [(createTransaction st ins now).2],
      nextId := st.nextId + 1 } := by
    obtain ⟨b, i, dts, f⟩ := hswf
    exact ⟨fun r hr => Nat.lt_succ_of_lt (b r hr), i, dts, f⟩
  obtain ⟨hviewC, hwfC, hmonoC, exC, hexC, hexvC, hexdC⟩ :=
    updStats_all _ (createTransaction st ins now).2 hswfMid
  have hfind1 : getTransaction (updateStatsForTransaction { st with
      transactions := st.transactions ++ [(createTransaction st ins now).2],
      nextId := st.nextId + 1 } (createTransaction st ins now).2)
      (createTransaction st ins now).2.id
      = some (createTransaction st ins now).2 := by
    simp only [getTransaction, updateStats_transactions]
    refine find?_append_fresh st.transactions _ _ rfl ?_
    intro q hq
    rw [hid]
    exact htb q hq
  have hmid : ∀ e, statsView { st with
      transactions := st.transactions ++ [(createTransaction st ins now).2],
      nextId := st.nextId + 1 } e = statsView st e :=
    fun e => statsView_congr_stats rfl e
  refine ⟨?_, ?_, ?_, ?_⟩
  · intro d
    rw [hsteq, deleteTransaction_statsView _ _ _ hwfC hfind1 exC hexC d]
    by_cases hdd : startOfDay d
        = startOfDay (createTransaction st ins now).2.date
    · rw [if_pos hdd, hviewC d, if_pos hdd, hmid d]
      have hv := hinv d
      obtain ⟨c1, c2, c3⟩ := aggTxns_counts_nonneg (txnsOnDay st d)
      have hcancel := subVals_addVals_cancel (statsView st d)
        (createTransaction st ins now).2
        (by rw [hv]; exact c1) (by rw [hv]; exact c2) (by rw [hv]; exact c3)
      rw [hcancel]
    · rw [if_neg hdd, hviewC d, if_neg hdd, hmid d]
  · rw [hsteq]
    obtain ⟨htr, _⟩ := deleteTransaction_transactions _ _ _ hfind1
    rw [htr, updateStats_transactions]
    dsimp only
    refine filter_append_fresh st.transactions _ _ rfl ?_
    intro q hq
    rw [hid]
    exact htb q hq
  · intro i t₀ hfind d
    have ht0mem := List.mem_of_find?_eq_some hfind
    rcases hgrow : getDailyStats st (startOfDay t₀.date) with _ | ex₀
    · exact absurd hgrow (getDailyStats_of_mem st t₀ hinv ht0mem)
    · exact deleteTransaction_statsView st i t₀ hswf hfind ex₀ hgrow d
  · intro i hnone
    simp [deleteTransaction, hnone]

/-- Concrete round-trip check: creating an entry in the empty store and
deleting it restores the day's statistics, and deleting an absent id
fails without touching the state. -/
theorem create_delete_roundtrip_witness :
    LedgerInv emptySt ∧
    statsView (deleteTransaction
        (createTransaction emptySt insEntry10 dJan10).1
        (createTransaction emptySt insEntry10 dJan10).2.id).1 dJan10
      = statsView emptySt dJan10 ∧
    deleteTransaction emptySt 99 = (emptySt, false) :=
  ⟨ledgerInv_empty,
    (create_delete_roundtrip emptySt insEntry10 dJan10 ledgerInv_empty).1
      dJan10,
    (create_delete_roundtrip emptySt insEntry10 dJan10 ledgerInv_empty).2.2.2
      99 (by decide)⟩

/-- After `updateStatsForTransaction` the transaction's day always has a
stored row (the upsert inserts one when it was missing). -/
theorem updStats_day_row_exists (st : St) (t : Txn) (hwf : StatsWF st) :
    getDailyStats (updateStatsForTransaction st t) (startOfDay t.date)
      ≠ none := by
  obtain ⟨_, _, _, ex, hex, _, _⟩ := updStats_all st t hwf
  simp [hex]

/-- C9 counterexample: a stats-affecting update of a transaction whose
day has no DailyStats row nevertheless writes a DailyStats row for that
day — the subtraction step is skipped, but the add phase upserts
unconditionally. -/
theorem update_missing_row_writes_stats :
    getDailyStats (updateTransaction stOrphanTxn 1
        { amount := some 20 } dJan20).1 (startOfDay txnEntry10.date)
      ≠ none := by
  decide

/-- C9 (amended): when the stored transaction's day has no DailyStats
row, a deletion skips the stats subtraction entirely — the stats table is
left exactly as it was, the transaction row is removed and the deletion
succeeds; a stats-affecting update likewise skips the subtraction, but
its add phase still runs `updateStatsForTransaction` on the patched row,
so a DailyStats row for the patched row's day is written after all. -/
theorem missing_day_row_skip_effects (st : St) (id : Nat) (t₀ : Txn)
    (hswf : StatsWF st) (hfind : getTransaction st id = some t₀)
    (hg : getDailyStats st (startOfDay t₀.date) = none) :
    (deleteTransaction st id).1.stats = st.stats ∧
    (deleteTransaction st id).1.transactions
      = st.transactions.filter (fun t => !(t.id == id)) ∧
    (deleteTransaction st id).2 = true ∧
    ∀ data : TxnPatch, ∀ now : DateTime,
      (data.amount.isSome || data.date.isSome || data.ttype.isSome)
        = true →
      getDailyStats (updateTransaction st id data now).1
        (startOfDay (data.date.getD t₀.date)) ≠ none := by
  have hgF : getDailyStats
      { st with transactions :=
        st.transactions.filter (fun t => !(t.id == id)) }
      (startOfDay t₀.date) = none := hg
  refine ⟨?_, ?_, ?_, ?_⟩
  · simp only [deleteTransaction, hfind, hgF]
  · simp only [deleteTransaction, hfind, hgF]
  · simp [deleteTransaction, hfind]
  · intro data now hcond
    simp only [updateTransaction, hfind]
    split <;> split
    · rename_i s heq
      have heq' : getDailyStats st (startOfDay t₀.date) = some s := heq
      rw [hg] at heq'
      simp at heq'
    · exact updStats_day_row_exists _ _ hswf
    · rename_i s heq
      have heq' : getDailyStats st (startOfDay t₀.date) = some s := heq
      rw [hg] at heq'
      simp at heq'
    · exact updStats_day_row_exists _ _ hswf

/-- Concrete check of the missing-row behaviour on a store holding one
entry transaction and no stats rows. -/
theorem missing_day_row_skip_effects_witness :
    (StatsWF stOrphanTxn ∧ getTransaction stOrphanTxn 1 = some txnEntry10 ∧
      getDailyStats stOrphanTxn (startOfDay txnEntry10.date) = none) ∧
    (deleteTransaction stOrphanTxn 1).1.stats = stOrphanTxn.stats :=
  ⟨⟨by decide, by decide, by decide⟩,
    (missing_day_row_skip_effects stOrphanTxn 1 txnEntry10 (by decide)
      (by decide) (by decide)).1⟩
